import Mathlib

/-!
# Verification of the API v2 document-processing module

Shallow embedding of the task lifecycle, concurrency gate, queueing branch,
vision routing, extraction fallback chain, configuration save/restore and the
demo client's polling loop of the Api-Doc-IA repository
(`src/backend/open_webui/api_v2/adapter.py`,
`src/backend/open_webui/routers/api_v2.py`,
`src/backend/open_webui/api_v2/models.py`, `src/client_demo/main.py`).

Conventions of the embedding:
* Python `time.time()` epoch floats become `Nat` timestamps.
* The adapter's `self.tasks` dict (insertion ordered) becomes a `List TaskRecord`;
  dict writes become list updates keyed on `task_id`.
* Calls into the host platform (chat completion, loaders, transcription,
  filesystem) are oracles: an `Except String α` input standing for the call's
  return value or the exception it raised.
* `uuid4()` task ids become a fresh-id counter (`nextId`); uniqueness of uuids
  is what the counter models.
* Database writes (`Files.insert_new_file`, the only database-layer write the
  module performs) land in the separate `dbFiles` component of the state; the
  adapter's `self.tasks` dict is process memory, not the database.
-/

namespace ApiV2

/-- `TaskStatus` enum, models.py lines 13-19. -/
inductive TaskStatus where
  | pending
  | processing
  | completed
  | failed
  | queued
  deriving DecidableEq, Repr

/-- `ErrorType` enum, models.py lines 22-29. -/
inductive ErrorType where
  | validation_error
  | processing_error
  | auth_error
  | rate_limit_error
  | system_error
  | timeout_error
  deriving DecidableEq, Repr

/-- One entry of the adapter's `self.tasks` dict: the keys written by
`create_task` (adapter.py 690-697), `process_document` (180-181, 234, 444,
524, 613, 637-643, 654-659). Keys absent from the Python dict are `none`. -/
structure TaskRecord where
  task_id : Nat
  user_id : Nat
  status : TaskStatus
  created_at : Nat
  progress : Nat
  result : Option String := none
  error : Option String := none
  error_type : Option ErrorType := none
  started_at : Option Nat := none
  completed_at : Option Nat := none
  failed_at : Option Nat := none
  deriving DecidableEq, Repr

/-- The state of the module: the adapter's in-memory `self.tasks` dict, the
file records persisted through the host database layer
(`Files.insert_new_file`, adapter.py 125), the background jobs that
`background_tasks.add_task` has scheduled but that have not started
(api_v2.py 177-187), the fresh-id counter, and `API_V2_MAX_CONCURRENT`. -/
structure SysState where
  tasks : List TaskRecord
  dbFiles : List Nat
  scheduled : List Nat
  nextId : Nat
  maxConcurrent : Nat
  deriving DecidableEq, Repr

/-- `self.tasks.get(task_id)`: first (and, invariantly, only) record with the
given id. -/
def findTask (ts : List TaskRecord) (tid : Nat) : Option TaskRecord :=
  ts.find? (fun t => t.task_id == tid)

/-- Write every dict entry keyed `tid` (unique in reachable states). -/
def updTask (tid : Nat) (f : TaskRecord → TaskRecord) (ts : List TaskRecord) :
    List TaskRecord :=
  ts.map (fun t => if t.task_id == tid then f t else t)

/-- The methods the `OpenWebUIAdapter` class defines (adapter.py 48-899).
The routers call `adapter.update_task_status`, which is not among them:
in Python that attribute lookup raises `AttributeError`. -/
def adapterMethods : List String :=
  ["__init__", "upload_file", "process_document", "create_task",
   "get_task_status", "get_available_models", "check_concurrency_limit",
   "get_queue_position", "_cleanup_task_memory", "cleanup_old_tasks",
   "get_system_status"]

/-- Python attribute lookup on the adapter instance succeeds iff the class
defines the method. -/
def adapterHasMethod (name : String) : Bool :=
  adapterMethods.contains name

/-- `OpenWebUIAdapter.check_concurrency_limit`, adapter.py 769-781:
count of tasks whose status is `processing`, compared to the limit. -/
def checkConcurrencyLimit (s : SysState) : Bool :=
  decide ((s.tasks.countP (fun t => t.status == TaskStatus.processing)) < s.maxConcurrent)

/-- `OpenWebUIAdapter.create_task`, adapter.py 673-699: a fresh id, a record
with status `PENDING`, `created_at = time.time()`, `progress = 0.0`, stored in
`self.tasks` (and nowhere else: no database call occurs in the method body). -/
def createTask (uid now : Nat) (s : SysState) : Nat × SysState :=
  let tid := s.nextId
  (tid,
   { s with
     tasks := s.tasks ++
       [{ task_id := tid, user_id := uid, status := TaskStatus.pending,
          created_at := now, progress := 0 }],
     nextId := s.nextId + 1 })

/-- The database write of `OpenWebUIAdapter.upload_file`
(`Files.insert_new_file`, adapter.py 125): the file record goes through the
host's database layer. -/
def uploadFileRecord (fid : Nat) (s : SysState) : SysState :=
  { s with dbFiles := s.dbFiles ++ [fid] }

/-- `OpenWebUIAdapter.get_queue_position`, adapter.py 783-805: tasks with
status `QUEUED`, sorted by `created_at`, 1-based index of the given id. -/
def getQueuePosition (tid : Nat) (s : SysState) : Option Nat :=
  let queued := (s.tasks.filter (fun t => t.status == TaskStatus.queued)).mergeSort
    (fun a b => a.created_at ≤ b.created_at)
  match queued.findIdx? (fun t => t.task_id == tid) with
  | some i => some (i + 1)
  | none => none

/-- An HTTP reply of the router, as far as the claims observe it. -/
inductive Reply where
  /-- `TaskResponse(task_id, status, position)` (api_v2.py 189-198, 204-210). -/
  | taskResp (tid : Nat) (st : TaskStatus) (position : Option Nat)
  /-- `StatusResponse` fields copied from the task record
  (adapter.py 715-729). -/
  | statusResp (task_id : Nat) (st : TaskStatus) (progress : Option Nat)
      (result : Option String) (error : Option String)
      (error_type : Option ErrorType) (created_at : Nat)
      (started_at : Option Nat) (completed_at : Option Nat)
  /-- `HTTPException(status_code=code)`. -/
  | httpError (code : Nat)
  /-- cancel_task's success body (api_v2.py 421). -/
  | cancelOk (tid : Nat)
  /-- an event that produces no HTTP reply (background steps). -/
  | silent
  deriving DecidableEq, Repr

/-- How one run of `adapter.process_document` ends: the completion result's
content, or the message of the exception that reached the outer
`except Exception` handler (adapter.py 650-661). -/
inductive BgOutcome where
  | success (content : String)
  | failure (msg : String)
  deriving DecidableEq, Repr

/-- The events of the system: the observable HTTP handlers of
routers/api_v2.py plus the interleaved steps of the background task. -/
inductive Event where
  /-- `POST /process` (api_v2.py 126-219) after a successful upload. -/
  | post (uid fid now : Nat)
  /-- The scheduled background task acquires the semaphore and
  `adapter.process_document` performs its first writes
  (status set to PROCESSING, started_at stamped; adapter.py 180-181). -/
  | bgStart (tid now : Nat)
  /-- A progress write of the running `process_document`
  (adapter.py 234, 444, 524: progress 10.0 / 50.0 / 60.0). -/
  | bgProgress (tid p : Nat)
  /-- `process_document` ends: COMPLETED with a result (adapter.py 637-643,
  with progress 100.0 from line 613) or FAILED with an error
  (adapter.py 654-659). -/
  | bgFinish (tid : Nat) (outcome : BgOutcome) (now : Nat)
  /-- `GET /status/task_id` (api_v2.py 222-254). -/
  | getStatus (tid : Nat)
  /-- `DELETE /tasks/task_id` (api_v2.py 381-430). -/
  | cancel (tid now : Nat)
  /-- `adapter.cleanup_old_tasks` (adapter.py 835-858). -/
  | cleanup (now : Nat)
  deriving DecidableEq, Repr

/-- The queued branch of `POST /process` (api_v2.py 199-210): it calls
`adapter.update_task_status(task_id, status=TaskStatus.QUEUED.value)`. The
attribute lookup is against the adapter's method table; when it fails the
`AttributeError` reaches `except Exception` (api_v2.py 214-219) and the
handler answers HTTP 500. `s2` is the state after `create_task`. -/
def queuedBranch (tid : Nat) (s2 : SysState) : SysState × Reply :=
  if adapterHasMethod "update_task_status" then
    -- what lines 201-210 would do if the method existed
    let s3 := { s2 with
      tasks := updTask tid (fun t => { t with status := TaskStatus.queued }) s2.tasks }
    (s3, Reply.taskResp tid TaskStatus.queued (getQueuePosition tid s3))
  else
    (s2, Reply.httpError 500)

/-- `POST /process` after upload: insert the file record (database), create
the task, then branch on `adapter.check_concurrency_limit()` (api_v2.py
160-210). The immediate branch schedules `process_document_background` and
answers `TaskResponse(status=PROCESSING)`. -/
def applyPost (uid fid now : Nat) (s : SysState) : SysState × Reply :=
  let s1 := uploadFileRecord fid s
  let (tid, s2) := createTask uid now s1
  if checkConcurrencyLimit s2 then
    ({ s2 with scheduled := s2.scheduled ++ [tid] },
     Reply.taskResp tid TaskStatus.processing none)
  else
    queuedBranch tid s2

/-- `GET /status/task_id`: `adapter.get_task_status` (adapter.py 701-729)
returns `None` exactly when the id is absent, in which case the router
answers 404 (api_v2.py 237-241); otherwise the `StatusResponse` copies the
record's fields. No write occurs. -/
def applyGetStatus (tid : Nat) (s : SysState) : SysState × Reply :=
  match findTask s.tasks tid with
  | none => (s, Reply.httpError 404)
  | some t =>
    (s, Reply.statusResp tid t.status (some t.progress) t.result t.error
        t.error_type t.created_at t.started_at t.completed_at)

/-- `DELETE /tasks/task_id` (api_v2.py 392-430): 404 when absent, 400 when
the task is completed or failed, otherwise the first
`adapter.update_task_status` call raises `AttributeError`, reaching
`except Exception` (426-430) → HTTP 500, with no state change. -/
def applyCancel (tid now : Nat) (s : SysState) : SysState × Reply :=
  match findTask s.tasks tid with
  | none => (s, Reply.httpError 404)
  | some t =>
    if t.status == TaskStatus.completed || t.status == TaskStatus.failed then
      (s, Reply.httpError 400)
    else if adapterHasMethod "update_task_status" then
      -- what lines 416-421 would do if the method existed
      ({ s with tasks := updTask tid (fun u =>
          { u with status := TaskStatus.failed,
                   error := some "Task cancelled by user",
                   error_type := some ErrorType.system_error,
                   failed_at := some now }) s.tasks },
       Reply.cancelOk tid)
    else
      (s, Reply.httpError 500)

/-- The records `cleanup_old_tasks` keeps: those NOT (completed or failed
with `completed_at` (falling back to `failed_at`, then `now`) older than the
24-hour cutoff `now - 24*3600`) (adapter.py 843-850; timestamps are epoch
seconds). -/
def cleanupKeep (now : Nat) (t : TaskRecord) : Bool :=
  !((t.status == TaskStatus.completed || t.status == TaskStatus.failed) &&
    decide ((t.completed_at.getD (t.failed_at.getD now)) < now - 24 * 3600))

/-- `adapter.cleanup_old_tasks` (adapter.py 835-858). -/
def applyCleanup (now : Nat) (s : SysState) : SysState :=
  { s with tasks := s.tasks.filter (cleanupKeep now) }

/-- One step of the system. `none` means the event is not enabled (the
background steps exist only for a scheduled, respectively running, task). -/
def applyEvent (e : Event) (s : SysState) : Option (SysState × Reply) :=
  match e with
  | Event.post uid fid now => some (applyPost uid fid now s)
  | Event.bgStart tid now =>
    if s.scheduled.contains tid then
      some ({ s with
        scheduled := s.scheduled.filter (fun x => x != tid),
        tasks := updTask tid (fun t =>
          { t with status := TaskStatus.processing, started_at := some now }) s.tasks },
       Reply.silent)
    else none
  | Event.bgProgress tid p =>
    match findTask s.tasks tid with
    | some t =>
      if t.status == TaskStatus.processing && (p == 10 || p == 50 || p == 60) then
        some ({ s with tasks := updTask tid (fun u => { u with progress := p }) s.tasks },
         Reply.silent)
      else none
    | none => none
  | Event.bgFinish tid outcome now =>
    match findTask s.tasks tid with
    | some t =>
      if t.status == TaskStatus.processing then
        match outcome with
        | BgOutcome.success content =>
          some ({ s with tasks := updTask tid (fun u =>
              { u with status := TaskStatus.completed, progress := 100,
                       result := some content, completed_at := some now }) s.tasks },
           Reply.silent)
        | BgOutcome.failure msg =>
          some ({ s with tasks := updTask tid (fun u =>
              { u with status := TaskStatus.failed, error := some msg,
                       error_type := some ErrorType.processing_error,
                       failed_at := some now }) s.tasks },
           Reply.silent)
      else none
    | none => none
  | Event.getStatus tid => some (applyGetStatus tid s)
  | Event.cancel tid now => some (applyCancel tid now s)
  | Event.cleanup now => some (applyCleanup now s, Reply.silent)

/-- Run a sequence of events, dropping the replies. -/
def applyEvents : List Event → SysState → Option SysState
  | [], s => some s
  | e :: es, s =>
    match applyEvent e s with
    | some (s', _) => applyEvents es s'
    | none => none

/-- The state at module start (`OpenWebUIAdapter.__init__`, adapter.py 59-63:
empty task dict), with `API_V2_MAX_CONCURRENT = m`. -/
def initState (m : Nat) : SysState :=
  { tasks := [], dbFiles := [], scheduled := [], nextId := 0, maxConcurrent := m }

/-! ## Vision routing (adapter.py 247-323)

The vision patterns of `detect_vision_capability` (adapter.py 266-273) use
only literal text, the escape `\.` and the gap `.*`; such a pattern is a list
of literal chunks, and Python's `re.search` holds exactly when the chunks
occur in the string in order, without overlap. `chopFirst` removes the text
up to and including the first occurrence of a chunk, the standard greedy
decision procedure for that language. -/

/-- Python `str.lower()` (ASCII, as the model names and filenames here
are): `Char.toLower` mapped over the characters. Lean's own
`String.toLower` is extensionally the same but is not kernel-reducible,
which concrete witnesses need. -/
def lowerStr (s : String) : String :=
  String.mk (s.data.map Char.toLower)

/-- Python `str.strip()`: leading and trailing whitespace removed. -/
def pyStrip (s : String) : String :=
  String.mk (((s.data.dropWhile Char.isWhitespace).reverse.dropWhile
    Char.isWhitespace).reverse)

/-- Does `needle` start `hay`? -/
def isPrefixList : List Char → List Char → Bool
  | [], _ => true
  | _ :: _, [] => false
  | a :: as, b :: bs => a == b && isPrefixList as bs

/-- The rest of `hay` after the first occurrence of `needle`, if any. -/
def chopFirst (needle : List Char) : List Char → Option (List Char)
  | [] => if needle.isEmpty then some [] else none
  | c :: t =>
    if isPrefixList needle (c :: t) then some ((c :: t).drop needle.length)
    else chopFirst needle t

/-- `re.search` of a chunk-gap pattern: each literal chunk occurs, in order. -/
def searchChunks : List (List Char) → List Char → Bool
  | [], _ => true
  | c :: cs, hay =>
    match chopFirst c hay with
    | some rest => searchChunks cs rest
    | none => false

/-- Python's `needle in hay` substring test. -/
def containsSub (needle hay : List Char) : Bool :=
  (chopFirst needle hay).isSome

/-- The `vision_patterns` list (adapter.py 266-273), each regex compiled to
its literal chunks (a `.*` separates chunks; `\.` is a literal dot; a
trailing `.*` matches the empty rest and adds no chunk). -/
def visionPatterns : List (List String) :=
  [["llava"], ["vision"], ["minicpm"], ["moondream"], ["cogvlm"],
   ["qwen", "vl"], ["qwen2", "vl"], ["qwen2.5vl"], ["internvl"],
   ["yi", "vl"], ["phi", "vision"], ["pixtral"],
   ["gemma", "vision"], ["gemma3"], ["gemma-3"], ["nidum-gemma-3"],
   ["mistral", "vision"], ["mistral", "instruct", "2503"],
   ["mistral-small", "instruct"],
   ["llama", "vision"], ["bakllava"]]

/-- `re.search(pattern, s)` for one compiled pattern. -/
def regexSearch (chunks : List String) (s : String) : Bool :=
  searchChunks (chunks.map String.toList) s.toList

/-- The `vision_keywords` list (adapter.py 281). -/
def visionKeywords : List String := ["vision", "vl", "visual", "image", "sight"]

/-- `detect_vision_capability` (adapter.py 258-282): falsy or "auto" names
are rejected, then the lowercased name is matched against the regex patterns,
then against the keywords as substrings. -/
def detect_vision_capability (model_name : String) : Bool :=
  if model_name == "" || model_name == "auto" then false
  else
    let model_lower := lowerStr model_name
    if visionPatterns.any (fun p => regexSearch p model_lower) then true
    else visionKeywords.any (fun k => containsSub k.toList model_lower.toList)

/-- The characters after the last dot, when a dot occurs
(`filename.split('.')[-1]` of a filename containing `'.'`). -/
def afterLastDot : List Char → Option (List Char)
  | [] => none
  | c :: t =>
    match afterLastDot t with
    | some r => some r
    | none => if c == '.' then some t else none

/-- `file_ext` (adapter.py 248): lowercased text after the last dot, or ""
when the filename has no dot. -/
def fileExt (fname : String) : String :=
  match afterLastDot fname.data with
  | some ext => String.mk (ext.map Char.toLower)
  | none => ""

/-- `file_item.filename.lower().endswith('.doc')` (adapter.py 478). -/
def endsWithDotDoc (fname : String) : Bool :=
  (".doc".data).isSuffixOf (lowerStr fname).data

/-- `is_image` (adapter.py 249). -/
def isImageFile (fname : String) : Bool :=
  ["png", "jpg", "jpeg", "gif", "bmp", "tiff", "webp"].contains (fileExt fname)

/-- `is_audio` (adapter.py 251). -/
def isAudioFile (fname : String) : Bool :=
  ["mp3", "wav", "ogg", "m4a", "flac", "aac", "opus"].contains (fileExt fname)

/-- `is_vision_model` from the `vision_mode` configuration
(adapter.py 314-323): `force_vision` → True, `force_text` → False,
anything else (the default "auto") → `detect_vision_capability`. -/
def isVisionModel (vision_mode current_model : String) : Bool :=
  if vision_mode == "force_vision" then true
  else if vision_mode == "force_text" then false
  else detect_vision_capability current_model

/-! ## The extraction fallback chain (adapter.py 325-521) -/

/-- The stages of `process_document` that call out of the module, in source
order. -/
inductive Stage where
  | vision
  | audio
  | loader
  | docFallback
  | pandoc
  | finalChat
  deriving DecidableEq, Repr

/-- The outcomes of the host-platform calls one `process_document` run makes:
each `Except` is the call's return value or the exception it raised. -/
structure ExtractOracle where
  /-- `file_item.path and os.path.exists(file_item.path)` (adapter.py 424, 457). -/
  pathExists : Bool
  /-- The vision try-block (adapter.py 329-403): `validate_and_process_image`
  plus `generate_openai_chat_completion`; `.ok a` is the extracted
  `vision_analysis`. -/
  visionCall : Except String String
  /-- `transcribe(request, path)` (adapter.py 432): `.ok t` is
  `transcription_result.get("text", ...)` read as "" when missing. -/
  audioCall : Except String String
  /-- `Loader().load(...)` (adapter.py 461-469): `.ok c` is the joined
  `page_content`. -/
  loaderCall : Except String String
  /-- `UnstructuredWordDocumentLoader` fallback (adapter.py 481-488). -/
  docFallbackCall : Except String String
  /-- `subprocess.run(['pandoc', ...])` (adapter.py 496-508):
  `.ok (rc, stdout, stderr)`. -/
  pandocCall : Except String (Nat × String × String)
  deriving Repr

/-- What the chain produces: `file_content`, `extraction_method`, and the
stages attempted in order. -/
structure ExtractResult where
  content : String
  method : String
  trace : List Stage
  deriving DecidableEq, Repr

/-- Standard document processing (adapter.py 456-521), reached when neither
vision nor audio succeeded; `tr` is the trace of the stages already tried.
Guard: `file_item.path and os.path.exists(...)` (457), with the `elif`
branch (518-521) when the path is missing. -/
def standardStage (fname : String) (o : ExtractOracle) (tr : List Stage) :
    ExtractResult :=
  if o.pathExists then
    match o.loaderCall with
    | Except.ok c =>
      { content := c, method := "Loader Direct", trace := tr ++ [Stage.loader] }
    | Except.error e =>
      -- `.doc` fallback (line 478)
      if endsWithDotDoc fname then
        match o.docFallbackCall with
        | Except.ok c =>
          { content := c, method := "UnstructuredWordDocumentLoader Fallback",
            trace := tr ++ [Stage.loader, Stage.docFallback] }
        | Except.error _ =>
          -- pandoc last resort (line 494)
          match o.pandocCall with
          | Except.ok rcOut =>
            if rcOut.1 == 0 then
              { content := rcOut.2.1, method := "Pandoc Fallback",
                trace := tr ++ [Stage.loader, Stage.docFallback, Stage.pandoc] }
            else
              -- nonzero returncode raises (line 508), caught at 509-512
              { content := "", method := "All methods failed",
                trace := tr ++ [Stage.loader, Stage.docFallback, Stage.pandoc] }
          | Except.error _ =>
            { content := "", method := "All methods failed",
              trace := tr ++ [Stage.loader, Stage.docFallback, Stage.pandoc] }
      else
        -- non-.doc: swallow the loader error, content stays empty (513-517)
        { content := "", method := "Failed: " ++ e, trace := tr ++ [Stage.loader] }
  else
    { content := "", method := "File path not found", trace := tr }

/-- The audio stage (adapter.py 421-454), reached when vision did not
succeed. Guard: `is_audio and ... path exists` (424); on success the content
carries the transcription, on a raised or falsy transcription control falls
to the standard stage. -/
def audioStage (fname : String) (o : ExtractOracle) (tr1 : List Stage) :
    ExtractResult :=
  if isAudioFile fname && o.pathExists then
    match o.audioCall with
    | Except.ok t =>
      -- `if transcription_result and transcription_result.get("text")`
      -- (line 434); a falsy text raises (447), caught at 449-454
      if t == "" then standardStage fname o (tr1 ++ [Stage.audio])
      else
        { content := "TRANSCRIPTION AUDIO de " ++ fname ++ ":\n\n" ++ pyStrip t,
          method := "Audio Transcription (Whisper)",
          trace := tr1 ++ [Stage.audio] }
    | Except.error _ => standardStage fname o (tr1 ++ [Stage.audio])
  else standardStage fname o tr1

/-- The extraction chain of `process_document` (adapter.py 325-521): the
vision stage (attempted iff `is_image and is_vision_model`, line 328), then
audio, then standard processing. Every stage's exception is caught by its
own `except` handler and control falls to the next applicable stage; the
chain never propagates an exception (it is a total function of the oracle). -/
def extractContent (fname vision_mode current_model : String)
    (o : ExtractOracle) : ExtractResult :=
  if isImageFile fname && isVisionModel vision_mode current_model then
    match o.visionCall with
    | Except.ok a =>
      -- `if vision_analysis and vision_analysis.strip()` (line 406);
      -- an empty analysis raises and is caught by the same handler (412-419)
      if pyStrip a == "" then audioStage fname o [Stage.vision]
      else
        { content := "IMAGE ANALYSIS for " ++ fname ++ ":\n\n" ++ a,
          method := "Vision Model Direct (" ++ current_model ++ ")",
          trace := [Stage.vision] }
    | Except.error _ => audioStage fname o [Stage.vision]
  else audioStage fname o []

/-- Did a host call raise? -/
def exFailed {A : Type} : Except String A → Bool
  | Except.ok _ => false
  | Except.error _ => true

/-- Did the vision try-block produce a non-empty analysis? -/
def visionCallOk (o : ExtractOracle) : Bool :=
  match o.visionCall with
  | Except.ok a => !(pyStrip a == "")
  | Except.error _ => false

/-- Did the transcription call return a truthy text? -/
def audioCallOk (o : ExtractOracle) : Bool :=
  match o.audioCall with
  | Except.ok t => !(t == "")
  | Except.error _ => false

/-- Whether the vision stage succeeded (`vision_processing_success`,
adapter.py 325-410), stated directly from the guards and the oracle. -/
def visionSuccess (fname vision_mode current_model : String)
    (o : ExtractOracle) : Bool :=
  isImageFile fname && isVisionModel vision_mode current_model &&
    visionCallOk o

/-- Whether the audio stage succeeded (`audio_processing_success`,
adapter.py 422-441). -/
def audioSuccess (fname vision_mode current_model : String)
    (o : ExtractOracle) : Bool :=
  isAudioFile fname && !visionSuccess fname vision_mode current_model o &&
    o.pathExists && audioCallOk o

/-! ## Model selection and the final chat completion (adapter.py 526-617) -/

/-- `selected_model = kwargs.get("model") or admin_model` (adapter.py 553):
a missing or falsy request parameter falls back to the admin model. -/
def requestedOrAdmin (requested : Option String) (adminModel : String) : String :=
  match requested with
  | some r => if r == "" then adminModel else r
  | none => adminModel

/-- The model-selection step (adapter.py 530-563): fail when no model is
listed, else take the requested model (falsy → admin model), falling back to
the first listed model when the choice is "auto" or unlisted. -/
def selectModel (requested : Option String) (adminModel : String)
    (avail : List String) : Except String String :=
  match avail with
  | [] => Except.error "No models available in the system"
  | first :: rest =>
    let selected := requestedOrAdmin requested adminModel
    if selected == "auto" || !(first :: rest).contains selected then Except.ok first
    else Except.ok selected

/-- The enriched prompt when content was extracted (adapter.py 568-577). -/
def enrichedPrompt (file_content prompt : String) : String :=
  "Voici le contenu du document à analyser :\n\n---\n" ++ file_content ++
  "\n---\n\nQuestion de l'utilisateur : " ++ prompt ++
  "\n\nRéponds en te basant sur le contenu du document ci-dessus."

/-- The warning prompt when no content was extracted (adapter.py 584-586). -/
def emptyContentPrompt (fname method prompt : String) : String :=
  "ATTENTION: Le fichier '" ++ fname ++
  "' semble vide ou son contenu n'a pas pu être extrait.\n\nMéthode tentée: " ++
  method ++ "\n\nQuestion de l'utilisateur : " ++ prompt ++
  "\n\nJe ne peux pas traiter ce fichier car son contenu n'est pas accessible."

/-- The oracle for a whole `process_document` run past extraction. -/
structure ProcessOracle where
  extract : ExtractOracle
  /-- `get_all_models` (adapter.py 530-549) as the list of model ids; an
  empty list raises "No models available in the system". -/
  availableModels : List String
  /-- The final `generate_chat_completion` (adapter.py 609-610). -/
  chatResult : Except String String
  deriving Repr

/-- What one `process_document` run did: its outcome, the calls it made in
order, and the message content it passed to the final chat completion
(`none` when the run raised before reaching it). -/
structure RunResult where
  outcome : Except String String
  trace : List Stage
  sentPrompt : Option String
  deriving Repr

/-- `current_model = API_V2_ADMIN_MODEL.value if API_V2_ADMIN_MODEL.value
else "auto"` (adapter.py 255). -/
def currentModelOf (adminModel : String) : String :=
  if adminModel == "" then "auto" else adminModel

/-- The body of one `process_document` run: extraction chain, model
selection, prompt enrichment, then the single final chat completion
(adapter.py 325-617). -/
def processDocumentRun (fname prompt : String) (requested : Option String)
    (adminModel vision_mode : String) (o : ProcessOracle) : RunResult :=
  let current_model := currentModelOf adminModel
  let ex := extractContent fname vision_mode current_model o.extract
  match selectModel requested adminModel o.availableModels with
  | Except.error e =>
    -- raised at line 543/549/563, before any final chat call
    { outcome := Except.error e, trace := ex.trace, sentPrompt := none }
  | Except.ok _sel =>
    -- `if file_content.strip()` (line 568)
    let enriched :=
      if !(pyStrip ex.content == "") then enrichedPrompt ex.content prompt
      else emptyContentPrompt fname ex.method prompt
    match o.chatResult with
    | Except.ok resp =>
      { outcome := Except.ok resp, trace := ex.trace ++ [Stage.finalChat],
        sentPrompt := some enriched }
    | Except.error e =>
      { outcome := Except.error e, trace := ex.trace ++ [Stage.finalChat],
        sentPrompt := some enriched }

/-- Which stages the chain tries, stated from the source's guards:
vision iff `is_image and is_vision_model` (adapter.py 328). -/
def visionAttempted (fname vision_mode current_model : String) : Bool :=
  isImageFile fname && isVisionModel vision_mode current_model

/-- Audio iff `is_audio and not vision_processing_success and ... path
exists` (adapter.py 424). -/
def audioAttempted (fname vision_mode current_model : String)
    (o : ExtractOracle) : Bool :=
  isAudioFile fname && !visionSuccess fname vision_mode current_model o &&
    o.pathExists

/-- The standard Loader iff neither vision nor audio succeeded and the path
exists (adapter.py 457). -/
def loaderAttempted (fname vision_mode current_model : String)
    (o : ExtractOracle) : Bool :=
  !visionSuccess fname vision_mode current_model o &&
    !audioSuccess fname vision_mode current_model o && o.pathExists

/-- The Word-document fallback iff the Loader was tried and raised and the
file ends `.doc` (adapter.py 474-483). -/
def docFallbackAttempted (fname vision_mode current_model : String)
    (o : ExtractOracle) : Bool :=
  loaderAttempted fname vision_mode current_model o &&
    exFailed o.loaderCall && endsWithDotDoc fname

/-- Pandoc iff the Word fallback was tried and raised (adapter.py 490-498). -/
def pandocAttempted (fname vision_mode current_model : String)
    (o : ExtractOracle) : Bool :=
  docFallbackAttempted fname vision_mode current_model o &&
    exFailed o.docFallbackCall

/-! ## Configuration save and restore (adapter.py 196-230, 663-671)

`request.app.state.config` is an attribute table: attribute name → value,
`none` when the attribute does not exist (`hasattr` false). `setattr` on the
table replaces or creates a binding. -/

/-- `config_mappings` (adapter.py 200-212): request parameter name →
host configuration attribute name. -/
def configMappings : List (String × String) :=
  [("pdf_extract_images", "PDF_EXTRACT_IMAGES"),
   ("bypass_embedding_and_retrieval", "BYPASS_EMBEDDING_AND_RETRIEVAL"),
   ("rag_full_context", "RAG_FULL_CONTEXT"),
   ("enable_hybrid_search", "ENABLE_RAG_HYBRID_SEARCH"),
   ("top_k", "RAG_TOP_K"),
   ("top_k_reranker", "RAG_TOP_K_RERANKER"),
   ("relevance_threshold", "RAG_RELEVANCE_THRESHOLD"),
   ("chunk_size", "CHUNK_SIZE"),
   ("chunk_overlap", "CHUNK_OVERLAP"),
   ("text_splitter", "TEXT_SPLITTER"),
   ("content_extraction_engine", "CONTENT_EXTRACTION_ENGINE")]

/-- `setattr(request.app.state.config, k, v)`. -/
def setattrC {V : Type} (cfg : String → Option V) (k : String) (v : V) :
    String → Option V :=
  fun x => if x == k then some v else cfg x

/-- The override applied to one attribute (adapter.py 220-229): priority to
the explicit request parameter, then to the stored database value, else the
attribute is left as it is. -/
def overrideValue {V : Type} (params stored : String → Option V)
    (pname : String) (cfg : String → Option V) (cname : String) :
    String → Option V :=
  match params pname with
  | some v => setattrC cfg cname v
  | none =>
    match stored pname with
    | some v => setattrC cfg cname v
    | none => cfg

/-- The save-and-override loop (adapter.py 214-229): for each mapping, when
the host attribute exists its original value is saved into `original_config`
(in loop order) and the attribute is overridden by the explicit request
parameter when given, else by the stored database value when present.
Returns the overridden table and the saved `original_config` entries. -/
def applyOverrides {V : Type} (params stored : String → Option V) :
    (String → Option V) → List (String × String) →
    (String → Option V) × List (String × V)
  | cfg, [] => (cfg, [])
  | cfg, (pname, cname) :: rest =>
    match cfg cname with
    | none => applyOverrides params stored cfg rest
    | some orig =>
      let next := applyOverrides params stored
        (overrideValue params stored pname cfg cname) rest
      (next.1, (cname, orig) :: next.2)

/-- The `finally` block (adapter.py 663-671): each saved attribute is set
back to its original value, in `original_config` order, guarded by
`hasattr`. -/
def restoreConfig {V : Type} : List (String × V) → (String → Option V) →
    String → Option V
  | [], cfg => cfg
  | (cname, orig) :: rest, cfg =>
    restoreConfig rest (if (cfg cname).isSome then setattrC cfg cname orig else cfg)

/-- One `process_document` run as the configuration sees it: the overrides
are applied, the body runs (returning normally or raising), and the
`finally` block restores the saved attributes on either exit. -/
def processWithConfigScope {V R : Type} (cfg : String → Option V)
    (params stored : String → Option V) (body : Except String R) :
    (String → Option V) × Except String R :=
  let over := applyOverrides params stored cfg configMappings
  (restoreConfig over.2 over.1, body)

/-! ## The demo client's polling loop (client_demo/main.py 522-581) -/

/-- What one status request of the polling loop observes. -/
inductive RespKind where
  /-- `requests.exceptions.RequestException` → `continue` (main.py 576-578). -/
  | netError
  /-- `status_resp.status_code != 200` → `continue` (main.py 547-548). -/
  | non200
  /-- A 200 reply: the task's status, progress, `result.content` and
  `error` fields. -/
  | okResp (st : String) (progress : Nat) (content : String) (error : String)
  deriving DecidableEq, Repr

/-- One iteration's environment: whether the user has cancelled, and the
status request's outcome. -/
structure PollInput where
  cancelled : Bool
  resp : RespKind
  deriving DecidableEq, Repr

/-- What `analyze_document_thread` posts to the result queue when the loop
ends. -/
inductive PollOutcome where
  /-- "Analyse annulée" (main.py 527-535). -/
  | cancelledByUser
  /-- the success message with the result content (main.py 561-566). -/
  | success (content : String)
  /-- "Résultat vide reçu du serveur" (main.py 567-568). -/
  | emptyResult
  /-- "Échec de l'analyse" with the server's error (main.py 571-574). -/
  | failedMsg (err : String)
  /-- "Timeout après ..s" (main.py 580-581). -/
  | timeoutMsg
  deriving DecidableEq, Repr

/-- `range(10)` micro-sleeps per iteration (main.py 532). -/
def microSleepsPerPoll : Nat := 10

/-- `time.sleep(0.1)` per micro-sleep, in milliseconds (main.py 536). -/
def microSleepMs : Nat := 100

/-- `timeout = int(self.config.get('app', 'timeout', fallback='300'))`
(main.py 523). -/
def clientDefaultTimeout : Nat := 300

/-- The polling loop `for attempt in range(timeout)` (main.py 526-578):
check cancellation, sleep about a second, request the status; non-200 and
network errors retry, `completed` posts success iff the content is
non-empty, `failed` posts the error; exhausting the budget posts the
timeout error. Arguments: the environment, the iterations already done, the
remaining budget; result: the posted outcome and the total iterations run. -/
def pollLoop (inputs : Nat → PollInput) : Nat → Nat → PollOutcome × Nat
  | i, 0 => (PollOutcome.timeoutMsg, i)
  | i, fuel + 1 =>
    let inp := inputs i
    if inp.cancelled then (PollOutcome.cancelledByUser, i + 1)
    else
      match inp.resp with
      | RespKind.netError => pollLoop inputs (i + 1) fuel
      | RespKind.non200 => pollLoop inputs (i + 1) fuel
      | RespKind.okResp st _p content err =>
        if st == "completed" then
          if content == "" then (PollOutcome.emptyResult, i + 1)
          else (PollOutcome.success content, i + 1)
        else if st == "failed" then (PollOutcome.failedMsg err, i + 1)
        else pollLoop inputs (i + 1) fuel

/-- The iterations on which the loop returns: user cancellation or a 200
reply with status `completed` or `failed`. -/
def decisiveInput (inp : PollInput) : Bool :=
  inp.cancelled ||
    (match inp.resp with
     | RespKind.okResp st _ _ _ => st == "completed" || st == "failed"
     | _ => false)

/-- The outcome a decisive iteration posts. -/
def decidedOutcome (inp : PollInput) : PollOutcome :=
  if inp.cancelled then PollOutcome.cancelledByUser
  else
    match inp.resp with
    | RespKind.okResp st _ c err =>
      if st == "completed" then
        if c == "" then PollOutcome.emptyResult else PollOutcome.success c
      else PollOutcome.failedMsg err
    | _ => PollOutcome.timeoutMsg

/-! # Theorems -/

/-! ## Configuration save/restore (claim C10) -/

theorem setattrC_self {V : Type} (cfg : String → Option V) (k : String) (v : V)
    (h : cfg k = some v) : setattrC cfg k v = cfg := by
  funext x
  by_cases hx : x = k
  · simp [setattrC, hx, h.symm]
  · simp [setattrC, hx]

theorem setattrC_overwrite {V : Type} (cfg : String → Option V) (k : String)
    (v w : V) : setattrC (setattrC cfg k v) k w = setattrC cfg k w := by
  funext x
  by_cases hx : x = k <;> simp [setattrC, hx]

theorem setattrC_comm {V : Type} (cfg : String → Option V) (k k' : String)
    (v v' : V) (h : k ≠ k') :
    setattrC (setattrC cfg k v) k' v' = setattrC (setattrC cfg k' v') k v := by
  funext x
  by_cases h1 : x = k' <;> by_cases h2 : x = k <;> simp_all [setattrC]

theorem setattrC_apply_ne {V : Type} (cfg : String → Option V) (k x : String)
    (v : V) (h : x ≠ k) : setattrC cfg k v x = cfg x := by
  simp [setattrC, h]

theorem overrideValue_isSome {V : Type} (params stored : String → Option V)
    (pname : String) (cfg : String → Option V) (cname x : String)
    (h : (cfg x).isSome) :
    ((overrideValue params stored pname cfg cname) x).isSome := by
  unfold overrideValue
  cases params pname with
  | some v => by_cases hx : x = cname <;> simp [setattrC, hx, h]
  | none =>
    cases stored pname with
    | some v => by_cases hx : x = cname <;> simp [setattrC, hx, h]
    | none => exact h

theorem restoreConfig_setattrC {V : Type} (saved : List (String × V))
    (k : String) (v : V) :
    ∀ cfg : String → Option V, (∀ p ∈ saved, p.1 ≠ k) →
    restoreConfig saved (setattrC cfg k v) =
      setattrC (restoreConfig saved cfg) k v := by
  induction saved with
  | nil => intro cfg _; rfl
  | cons p rest ih =>
    obtain ⟨cname, orig⟩ := p
    intro cfg h
    have hpk : cname ≠ k := h (cname, orig) (List.mem_cons_self _ rest)
    have hrest : ∀ q ∈ rest, q.1 ≠ k := fun q hq => h q (List.mem_cons_of_mem _ hq)
    show restoreConfig rest
        (if ((setattrC cfg k v) cname).isSome
         then setattrC (setattrC cfg k v) cname orig else setattrC cfg k v) = _
    rw [setattrC_apply_ne cfg k cname v hpk]
    by_cases hs : (cfg cname).isSome
    · rw [if_pos hs, setattrC_comm cfg k cname v orig (fun hk => hpk hk.symm),
        ih _ hrest]
      show _ = setattrC (restoreConfig rest
        (if (cfg cname).isSome then setattrC cfg cname orig else cfg)) k v
      rw [if_pos hs]
    · rw [if_neg hs, ih cfg hrest]
      show _ = setattrC (restoreConfig rest
        (if (cfg cname).isSome then setattrC cfg cname orig else cfg)) k v
      rw [if_neg hs]

theorem applyOverrides_isSome {V : Type} (params stored : String → Option V) :
    ∀ (ms : List (String × String)) (cfg : String → Option V) (x : String),
    (cfg x).isSome → ((applyOverrides params stored cfg ms).1 x).isSome := by
  intro ms
  induction ms with
  | nil => intro cfg x h; exact h
  | cons m rest ih =>
    obtain ⟨pname, cname⟩ := m
    intro cfg x h
    show ((match cfg cname with
      | none => applyOverrides params stored cfg rest
      | some orig =>
        ((applyOverrides params stored
            (overrideValue params stored pname cfg cname) rest).1,
         (cname, orig) ::
           (applyOverrides params stored
             (overrideValue params stored pname cfg cname) rest).2)).1 x).isSome
    cases hm : cfg cname with
    | none => exact ih cfg x h
    | some orig =>
      exact ih _ x (overrideValue_isSome params stored pname cfg cname x h)

theorem applyOverrides_saved_keys {V : Type} (params stored : String → Option V) :
    ∀ (ms : List (String × String)) (cfg : String → Option V),
    ∀ p ∈ (applyOverrides params stored cfg ms).2, p.1 ∈ ms.map Prod.snd := by
  intro ms
  induction ms with
  | nil => intro cfg p hp; exact absurd hp (List.not_mem_nil p)
  | cons m rest ih =>
    obtain ⟨pname, cname⟩ := m
    intro cfg p
    show p ∈ (match cfg cname with
      | none => applyOverrides params stored cfg rest
      | some orig =>
        ((applyOverrides params stored
            (overrideValue params stored pname cfg cname) rest).1,
         (cname, orig) ::
           (applyOverrides params stored
             (overrideValue params stored pname cfg cname) rest).2)).2 → _
    cases hm : cfg cname with
    | none =>
      intro hp
      exact List.mem_cons_of_mem _ (ih cfg p hp)
    | some orig =>
      intro hp
      rcases List.mem_cons.mp hp with h | h
      · rw [h]; exact List.mem_cons_self _ _
      · exact List.mem_cons_of_mem _ (ih _ p h)

theorem restore_applyOverrides {V : Type} (params stored : String → Option V) :
    ∀ (ms : List (String × String)), (ms.map Prod.snd).Nodup →
    ∀ cfg : String → Option V,
    restoreConfig (applyOverrides params stored cfg ms).2
      (applyOverrides params stored cfg ms).1 = cfg := by
  intro ms
  induction ms with
  | nil => intro _ cfg; rfl
  | cons m rest ih =>
    obtain ⟨pname, cname⟩ := m
    intro hnd cfg
    have hnotin : cname ∉ rest.map Prod.snd := (List.nodup_cons.mp hnd).1
    have hndrest : (rest.map Prod.snd).Nodup := (List.nodup_cons.mp hnd).2
    show restoreConfig (match cfg cname with
      | none => applyOverrides params stored cfg rest
      | some orig =>
        ((applyOverrides params stored
            (overrideValue params stored pname cfg cname) rest).1,
         (cname, orig) ::
           (applyOverrides params stored
             (overrideValue params stored pname cfg cname) rest).2)).2
      (match cfg cname with
      | none => applyOverrides params stored cfg rest
      | some orig =>
        ((applyOverrides params stored
            (overrideValue params stored pname cfg cname) rest).1,
         (cname, orig) ::
           (applyOverrides params stored
             (overrideValue params stored pname cfg cname) rest).2)).1 = cfg
    cases hm : cfg cname with
    | none => exact ih hndrest cfg
    | some orig =>
      set cfg' := overrideValue params stored pname cfg cname with hcfg'
      show restoreConfig (applyOverrides params stored cfg' rest).2
        (if ((applyOverrides params stored cfg' rest).1 cname).isSome
         then setattrC (applyOverrides params stored cfg' rest).1 cname orig
         else (applyOverrides params stored cfg' rest).1) = cfg
      have hsome0 : (cfg' cname).isSome := by
        rw [hcfg']
        unfold overrideValue
        cases hp : params pname with
        | some v => simp [setattrC]
        | none =>
          cases hs : stored pname with
          | some v => simp [setattrC]
          | none => simp [hm]
      have hsome : ((applyOverrides params stored cfg' rest).1 cname).isSome :=
        applyOverrides_isSome params stored rest cfg' cname hsome0
      rw [if_pos hsome]
      have hkeys : ∀ p ∈ (applyOverrides params stored cfg' rest).2, p.1 ≠ cname := by
        intro p hp hpk
        exact hnotin (hpk ▸ applyOverrides_saved_keys params stored rest cfg' p hp)
      rw [restoreConfig_setattrC _ _ _ _ hkeys]
      rw [ih hndrest cfg']
      rw [hcfg']
      unfold overrideValue
      cases hp : params pname with
      | some v => rw [setattrC_overwrite, setattrC_self cfg cname orig hm]
      | none =>
        cases hs : stored pname with
        | some v => rw [setattrC_overwrite, setattrC_self cfg cname orig hm]
        | none => rw [setattrC_self cfg cname orig hm]

/-- C10: `process_document` saves the original value of every host
configuration attribute it overrides (the mapped keys are exactly
PDF_EXTRACT_IMAGES, BYPASS_EMBEDDING_AND_RETRIEVAL, RAG_FULL_CONTEXT,
ENABLE_RAG_HYBRID_SEARCH, RAG_TOP_K, RAG_TOP_K_RERANKER,
RAG_RELEVANCE_THRESHOLD, CHUNK_SIZE, CHUNK_OVERLAP, TEXT_SPLITTER,
CONTENT_EXTRACTION_ENGINE), and its `finally` block restores every saved
attribute on every exit — whether the body returns or raises — so the host
configuration after the run equals the configuration before it. -/
theorem config_unchanged_by_processing {V R : Type} (cfg params stored : String → Option V)
    (body : Except String R) :
    (processWithConfigScope cfg params stored body).1 = cfg ∧
    (processWithConfigScope cfg params stored body).2 = body ∧
    configMappings.map Prod.snd =
      ["PDF_EXTRACT_IMAGES", "BYPASS_EMBEDDING_AND_RETRIEVAL", "RAG_FULL_CONTEXT",
       "ENABLE_RAG_HYBRID_SEARCH", "RAG_TOP_K", "RAG_TOP_K_RERANKER",
       "RAG_RELEVANCE_THRESHOLD", "CHUNK_SIZE", "CHUNK_OVERLAP", "TEXT_SPLITTER",
       "CONTENT_EXTRACTION_ENGINE"] := by
  refine ⟨?_, rfl, by decide⟩
  exact restore_applyOverrides params stored configMappings (by decide) cfg

/-! ## The demo client's polling loop (claim C9) -/

theorem pollLoop_iterations_le (inputs : Nat → PollInput) :
    ∀ (fuel i : Nat), (pollLoop inputs i fuel).2 ≤ i + fuel := by
  intro fuel
  induction fuel with
  | zero => intro i; simp [pollLoop]
  | succ n ih =>
    intro i
    have hrec : (pollLoop inputs (i + 1) n).2 ≤ i + (n + 1) := by
      have := ih (i + 1); omega
    rw [pollLoop]
    cases hc : (inputs i).cancelled
    · simp only [hc, Bool.false_eq_true, if_false]
      cases hr : (inputs i).resp with
      | netError => exact hrec
      | non200 => exact hrec
      | okResp st p content err =>
        cases h1 : st == "completed"
        · simp only [h1, Bool.false_eq_true, if_false]
          cases h2 : st == "failed"
          · simp only [h2, Bool.false_eq_true, if_false]; exact hrec
          · simp only [h2, if_true]; simp
        · simp only [h1, if_true]
          cases h2 : content == "" <;> simp
    · simp only [hc, if_true]; simp

theorem pollLoop_timeout (inputs : Nat → PollInput) :
    ∀ (fuel i : Nat),
    (∀ j, i ≤ j → j < i + fuel → decisiveInput (inputs j) = false) →
    pollLoop inputs i fuel = (PollOutcome.timeoutMsg, i + fuel) := by
  intro fuel
  induction fuel with
  | zero => intro i _; simp [pollLoop]
  | succ n ih =>
    intro i h
    have hi : decisiveInput (inputs i) = false := h i le_rfl (by omega)
    unfold decisiveInput at hi
    rw [Bool.or_eq_false_iff] at hi
    have hc : (inputs i).cancelled = false := hi.1
    have hrec : pollLoop inputs (i + 1) n = (PollOutcome.timeoutMsg, (i + 1) + n) :=
      ih (i + 1) (fun j hj1 hj2 => h j (by omega) (by omega))
    rw [pollLoop]
    simp only [hc, Bool.false_eq_true, if_false]
    cases hr : (inputs i).resp with
    | netError => rw [hrec, Nat.succ_add_eq_add_succ]
    | non200 => rw [hrec, Nat.succ_add_eq_add_succ]
    | okResp st p content err =>
      rw [hr] at hi
      have hst := hi.2
      rw [Bool.or_eq_false_iff] at hst
      simp only [hst.1, hst.2, Bool.false_eq_true, if_false]
      rw [hrec, Nat.succ_add_eq_add_succ]

theorem pollLoop_decides (inputs : Nat → PollInput) :
    ∀ (fuel i j : Nat), i ≤ j → j < i + fuel →
    decisiveInput (inputs j) = true →
    (∀ k, i ≤ k → k < j → decisiveInput (inputs k) = false) →
    pollLoop inputs i fuel = (decidedOutcome (inputs j), j + 1) := by
  intro fuel
  induction fuel with
  | zero => intro i j h1 h2; omega
  | succ n ih =>
    intro i j hij hlt hdec hbefore
    rcases Nat.eq_or_lt_of_le hij with heq | hlt'
    · subst heq
      rw [pollLoop]
      cases hc : (inputs i).cancelled
      · simp only [hc, Bool.false_eq_true, if_false]
        unfold decisiveInput at hdec
        rw [hc, Bool.false_or] at hdec
        cases hr : (inputs i).resp with
        | netError => rw [hr] at hdec; exact absurd hdec (by simp)
        | non200 => rw [hr] at hdec; exact absurd hdec (by simp)
        | okResp st p content err =>
          rw [hr] at hdec
          unfold decidedOutcome
          rw [hr]
          simp only [hc, Bool.false_eq_true, if_false]
          cases h1 : st == "completed"
          · have h2 : (st == "failed") = true := by
              rcases Bool.or_eq_true_iff.mp hdec with h | h
              · rw [h1] at h; exact absurd h (by simp)
              · exact h
            simp only [h1, h2, Bool.false_eq_true, if_false, if_true]
          · simp only [h1, if_true]
            cases h2 : content == "" <;> simp only [h2, Bool.false_eq_true, if_false, if_true]
      · unfold decisiveInput at hdec
        unfold decidedOutcome
        simp only [hc, if_true]
    · have hi : decisiveInput (inputs i) = false := hbefore i le_rfl hlt'
      unfold decisiveInput at hi
      rw [Bool.or_eq_false_iff] at hi
      have hc : (inputs i).cancelled = false := hi.1
      have hrec : pollLoop inputs (i + 1) n = (decidedOutcome (inputs j), j + 1) :=
        ih (i + 1) j (by omega) (by omega) hdec (fun k hk1 hk2 => hbefore k (by omega) hk2)
      rw [pollLoop]
      simp only [hc, Bool.false_eq_true, if_false]
      cases hr : (inputs i).resp with
      | netError => exact hrec
      | non200 => exact hrec
      | okResp st p content err =>
        rw [hr] at hi
        have hst := hi.2
        rw [Bool.or_eq_false_iff] at hst
        simp only [hst.1, hst.2, Bool.false_eq_true, if_false]
        exact hrec

/-- C9: the demo client's polling loop performs at most `timeout` iterations
(default 300), sleeping 10 × 100 ms ≈ one second per iteration before each
status request; it terminates at the first iteration on which the user has
cancelled or the server reports `completed` (posting success iff the result
content is non-empty, the empty-result error otherwise) or `failed`
(posting the failure), and when the budget is exhausted with no such
iteration it posts the timeout error. -/
theorem client_polling_loop (inputs : Nat → PollInput) (timeoutN : Nat) :
    (pollLoop inputs 0 timeoutN).2 ≤ timeoutN ∧
    ((∀ j, j < timeoutN → decisiveInput (inputs j) = false) →
      pollLoop inputs 0 timeoutN = (PollOutcome.timeoutMsg, timeoutN)) ∧
    (∀ j, j < timeoutN → decisiveInput (inputs j) = true →
      (∀ k, k < j → decisiveInput (inputs k) = false) →
      pollLoop inputs 0 timeoutN = (decidedOutcome (inputs j), j + 1)) ∧
    microSleepsPerPoll * microSleepMs = 1000 ∧ clientDefaultTimeout = 300 := by
  refine ⟨?_, ?_, ?_, rfl, rfl⟩
  · have := pollLoop_iterations_le inputs timeoutN 0
    simpa using this
  · intro h
    have := pollLoop_timeout inputs timeoutN 0 (fun j _ hj => h j (by omega))
    simpa using this
  · intro j hj hdec hbefore
    exact pollLoop_decides inputs timeoutN 0 j (Nat.zero_le j) (by omega) hdec
      (fun k _ hk => hbefore k hk)

end ApiV2


namespace ApiV2

/-- The stages the standard-processing block appends to the trace. -/
def standardSuffix (fname : String) (o : ExtractOracle) : List Stage :=
  if o.pathExists then
    [Stage.loader] ++
      (if exFailed o.loaderCall && endsWithDotDoc fname then
        [Stage.docFallback] ++
          (if exFailed o.docFallbackCall then [Stage.pandoc] else [])
       else [])
  else []

theorem standardStage_trace (fname : String) (o : ExtractOracle) (tr : List Stage) :
    (standardStage fname o tr).trace = tr ++ standardSuffix fname o := by
  unfold standardStage standardSuffix
  cases hp : o.pathExists
  · simp
  · cases hl : o.loaderCall with
    | ok c => simp [exFailed]
    | error e =>
      cases hd : endsWithDotDoc fname
      · simp [exFailed, hd]
      · cases hdc : o.docFallbackCall with
        | ok c => simp [exFailed, hd]
        | error e2 =>
          cases hpc : o.pandocCall with
          | ok rcOut => cases hrc : rcOut.1 == 0 <;> simp [exFailed, hd, hrc]
          | error e3 => simp [exFailed, hd]

theorem audioStage_trace (fname : String) (o : ExtractOracle) (tr1 : List Stage) :
    (audioStage fname o tr1).trace =
      tr1 ++ (if isAudioFile fname && o.pathExists then
        Stage.audio :: (if audioCallOk o then [] else standardSuffix fname o)
      else standardSuffix fname o) := by
  unfold audioStage
  cases hg : isAudioFile fname && o.pathExists
  · simp [standardStage_trace]
  · cases ha : o.audioCall with
    | ok t =>
      cases ht : t == ""
      · simp [audioCallOk, ha, ht]
      · simp [audioCallOk, ha, ht, standardStage_trace]
    | error e => simp [audioCallOk, ha, standardStage_trace]

theorem standardSuffix_eq_attempted (fname vision_mode current_model : String)
    (o : ExtractOracle)
    (hVS : visionSuccess fname vision_mode current_model o = false)
    (hAS : audioSuccess fname vision_mode current_model o = false) :
    standardSuffix fname o =
      (if loaderAttempted fname vision_mode current_model o then [Stage.loader] else []) ++
      (if docFallbackAttempted fname vision_mode current_model o then [Stage.docFallback] else []) ++
      (if pandocAttempted fname vision_mode current_model o then [Stage.pandoc] else []) := by
  cases hp : o.pathExists
  · have hLA : loaderAttempted fname vision_mode current_model o = false := by
      simp [loaderAttempted, hp]
    have hDFA : docFallbackAttempted fname vision_mode current_model o = false := by
      simp [docFallbackAttempted, hLA]
    have hPA : pandocAttempted fname vision_mode current_model o = false := by
      simp [pandocAttempted, hDFA]
    simp [standardSuffix, hp, hLA, hDFA, hPA]
  · have hLA : loaderAttempted fname vision_mode current_model o = true := by
      simp [loaderAttempted, hVS, hAS, hp]
    cases hlf : exFailed o.loaderCall
    · have hDFA : docFallbackAttempted fname vision_mode current_model o = false := by
        simp [docFallbackAttempted, hlf]
      have hPA : pandocAttempted fname vision_mode current_model o = false := by
        simp [pandocAttempted, hDFA]
      simp [standardSuffix, hp, hlf, hLA, hDFA, hPA]
    · cases hd : endsWithDotDoc fname
      · have hDFA : docFallbackAttempted fname vision_mode current_model o = false := by
          simp [docFallbackAttempted, hd]
        have hPA : pandocAttempted fname vision_mode current_model o = false := by
          simp [pandocAttempted, hDFA]
        simp [standardSuffix, hp, hlf, hd, hLA, hDFA, hPA]
      · have hDFA : docFallbackAttempted fname vision_mode current_model o = true := by
          simp [docFallbackAttempted, hLA, hlf, hd]
        cases hdf : exFailed o.docFallbackCall
        · have hPA : pandocAttempted fname vision_mode current_model o = false := by
            simp [pandocAttempted, hdf]
          simp [standardSuffix, hp, hlf, hd, hdf, hLA, hDFA, hPA]
        · have hPA : pandocAttempted fname vision_mode current_model o = true := by
            simp [pandocAttempted, hDFA, hdf]
          simp [standardSuffix, hp, hlf, hd, hdf, hLA, hDFA, hPA]

theorem audio_part_eq_attempted (fname vision_mode current_model : String)
    (o : ExtractOracle)
    (hVS : visionSuccess fname vision_mode current_model o = false) :
    (if isAudioFile fname && o.pathExists then
        Stage.audio :: (if audioCallOk o then [] else standardSuffix fname o)
      else standardSuffix fname o) =
      (if audioAttempted fname vision_mode current_model o then [Stage.audio] else []) ++
      (if loaderAttempted fname vision_mode current_model o then [Stage.loader] else []) ++
      (if docFallbackAttempted fname vision_mode current_model o then [Stage.docFallback] else []) ++
      (if pandocAttempted fname vision_mode current_model o then [Stage.pandoc] else []) := by
  cases hg : isAudioFile fname && o.pathExists
  · have hAA : audioAttempted fname vision_mode current_model o = false := by
      rcases Bool.and_eq_false_iff.mp hg with h | h <;> simp [audioAttempted, h]
    have hAS : audioSuccess fname vision_mode current_model o = false := by
      rcases Bool.and_eq_false_iff.mp hg with h | h <;> simp [audioSuccess, h]
    rw [standardSuffix_eq_attempted fname vision_mode current_model o hVS hAS]
    simp [hg, hAA, List.append_assoc]
  · have hAA : audioAttempted fname vision_mode current_model o = true := by
      rcases Bool.and_eq_true_iff.mp hg with ⟨h1, h2⟩
      simp [audioAttempted, h1, h2, hVS]
    cases hok : audioCallOk o
    · have hAS : audioSuccess fname vision_mode current_model o = false := by
        simp [audioSuccess, hok]
      rw [standardSuffix_eq_attempted fname vision_mode current_model o hVS hAS]
      simp [hg, hok, hAA, List.append_assoc]
    · have hAS : audioSuccess fname vision_mode current_model o = true := by
        rcases Bool.and_eq_true_iff.mp hg with ⟨h1, h2⟩
        simp [audioSuccess, h1, h2, hVS, hok]
      have hLA : loaderAttempted fname vision_mode current_model o = false := by
        simp [loaderAttempted, hAS]
      have hDFA : docFallbackAttempted fname vision_mode current_model o = false := by
        simp [docFallbackAttempted, hLA]
      have hPA : pandocAttempted fname vision_mode current_model o = false := by
        simp [pandocAttempted, hDFA]
      simp [hg, hok, hAA, hLA, hDFA, hPA]

theorem extract_trace_eq (fname vision_mode current_model : String)
    (o : ExtractOracle) :
    (extractContent fname vision_mode current_model o).trace =
      (if visionAttempted fname vision_mode current_model then [Stage.vision] else []) ++
      (if audioAttempted fname vision_mode current_model o then [Stage.audio] else []) ++
      (if loaderAttempted fname vision_mode current_model o then [Stage.loader] else []) ++
      (if docFallbackAttempted fname vision_mode current_model o then [Stage.docFallback] else []) ++
      (if pandocAttempted fname vision_mode current_model o then [Stage.pandoc] else []) := by
  unfold extractContent
  cases hb : isImageFile fname && isVisionModel vision_mode current_model
  · have hVA : visionAttempted fname vision_mode current_model = false := hb
    have hVS : visionSuccess fname vision_mode current_model o = false := by
      simp only [visionSuccess, Bool.and_assoc]
      rcases Bool.and_eq_false_iff.mp hb with h | h <;>
        simp [h, ← Bool.and_assoc, hb]
    simp only [Bool.false_eq_true, if_false]
    rw [audioStage_trace,
      audio_part_eq_attempted fname vision_mode current_model o hVS]
    simp [hVA, List.append_assoc]
  · have hVA : visionAttempted fname vision_mode current_model = true := hb
    simp only [eq_self_iff_true, if_true]
    cases hvc : o.visionCall with
    | ok a =>
      cases ht : pyStrip a == ""
      · -- vision succeeded
        have hVS : visionSuccess fname vision_mode current_model o = true := by
          simp [visionSuccess, Bool.and_assoc, hb, visionCallOk, hvc, ht]
        have hAA : audioAttempted fname vision_mode current_model o = false := by
          simp [audioAttempted, hVS]
        have hAS : audioSuccess fname vision_mode current_model o = false := by
          simp [audioSuccess, hVS]
        have hLA : loaderAttempted fname vision_mode current_model o = false := by
          simp [loaderAttempted, hVS]
        have hDFA : docFallbackAttempted fname vision_mode current_model o = false := by
          simp [docFallbackAttempted, hLA]
        have hPA : pandocAttempted fname vision_mode current_model o = false := by
          simp [pandocAttempted, hDFA]
        simp [ht, hVA, hAA, hLA, hDFA, hPA]
        
      · -- empty analysis: raises, falls through
        have hVS : visionSuccess fname vision_mode current_model o = false := by
          simp [visionSuccess, Bool.and_assoc, visionCallOk, hvc, ht]
        simp only [ht, eq_self_iff_true, if_true]
        rw [audioStage_trace,
          audio_part_eq_attempted fname vision_mode current_model o hVS]
        simp [hVA, List.append_assoc]
    | error e =>
      have hVS : visionSuccess fname vision_mode current_model o = false := by
        simp [visionSuccess, Bool.and_assoc, visionCallOk, hvc]
      rw [audioStage_trace,
        audio_part_eq_attempted fname vision_mode current_model o hVS]
      simp [hVA, List.append_assoc]


theorem mem_if_singleton {α : Type} (st x : α) (b : Bool) :
    st ∈ (if b = true then [x] else []) ↔ st = x ∧ b = true := by
  cases b <;> simp

/-- Which stages the chain tried, read off the trace. -/
theorem stage_mem_trace (fname vision_mode current_model : String)
    (o : ExtractOracle) (st : Stage) :
    st ∈ (extractContent fname vision_mode current_model o).trace ↔
      (st = Stage.vision ∧ visionAttempted fname vision_mode current_model = true) ∨
      (st = Stage.audio ∧ audioAttempted fname vision_mode current_model o = true) ∨
      (st = Stage.loader ∧ loaderAttempted fname vision_mode current_model o = true) ∨
      (st = Stage.docFallback ∧ docFallbackAttempted fname vision_mode current_model o = true) ∨
      (st = Stage.pandoc ∧ pandocAttempted fname vision_mode current_model o = true) := by
  rw [extract_trace_eq]
  simp only [List.mem_append, mem_if_singleton]
  tauto

theorem if_singleton_sublist {α : Type} (x : α) (b : Bool) :
    (if b = true then [x] else []).Sublist [x] := by
  cases b <;> simp

/-- The chain's stages occur in the source's fixed order. -/
theorem trace_sublist_canonical (fname vision_mode current_model : String)
    (o : ExtractOracle) :
    (extractContent fname vision_mode current_model o).trace.Sublist
      [Stage.vision, Stage.audio, Stage.loader, Stage.docFallback, Stage.pandoc] := by
  rw [extract_trace_eq]
  have h := ((((if_singleton_sublist Stage.vision
      (visionAttempted fname vision_mode current_model)).append
    (if_singleton_sublist Stage.audio
      (audioAttempted fname vision_mode current_model o))).append
    (if_singleton_sublist Stage.loader
      (loaderAttempted fname vision_mode current_model o))).append
    (if_singleton_sublist Stage.docFallback
      (docFallbackAttempted fname vision_mode current_model o))).append
    (if_singleton_sublist Stage.pandoc
      (pandocAttempted fname vision_mode current_model o))
  simpa using h

theorem finalChat_not_in_extract (fname vision_mode current_model : String)
    (o : ExtractOracle) :
    Stage.finalChat ∉ (extractContent fname vision_mode current_model o).trace := by
  rw [stage_mem_trace]
  simp

/-- `selectModel` raises exactly when no model is listed. -/
theorem selectModel_ok (requested : Option String) (adminModel : String)
    (avail : List String) (h : avail ≠ []) :
    ∃ sel, selectModel requested adminModel avail = Except.ok sel := by
  match avail with
  | [] => exact absurd rfl h
  | first :: rest =>
    cases hc : (requestedOrAdmin requested adminModel == "auto"
        || !(first :: rest).contains (requestedOrAdmin requested adminModel))
    · exact ⟨requestedOrAdmin requested adminModel,
        by simp only [selectModel, hc, Bool.false_eq_true, if_false]⟩
    · exact ⟨first, by simp only [selectModel, hc, if_true]⟩

theorem detect_vision_capability_spec (m : String) (hne : m ≠ "") (hna : m ≠ "auto") :
    detect_vision_capability m = true ↔
      (∃ p ∈ visionPatterns, regexSearch p (lowerStr m) = true) ∨
      (∃ k ∈ visionKeywords, containsSub k.toList (lowerStr m).toList = true) := by
  unfold detect_vision_capability
  have h1 : (m == "") = false := by simp [hne]
  have h2 : (m == "auto") = false := by simp [hna]
  simp only [h1, h2, Bool.or_self, Bool.false_eq_true, if_false]
  cases hA : visionPatterns.any (fun p => regexSearch p (lowerStr m))
  · simp only [Bool.false_eq_true, if_false]
    constructor
    · intro h
      exact Or.inr (by simpa using List.any_eq_true.mp h)
    · intro h
      rcases h with ⟨p, hp, hpp⟩ | ⟨k, hk, hkk⟩
      · have hT : visionPatterns.any (fun q => regexSearch q (lowerStr m)) = true :=
          List.any_eq_true.mpr ⟨p, hp, hpp⟩
        rw [hA] at hT
        exact absurd hT (by simp)
      · exact List.any_eq_true.mpr ⟨k, hk, hkk⟩
  · rw [if_pos rfl]
    exact ⟨fun _ => Or.inl (by simpa using List.any_eq_true.mp hA), fun _ => rfl⟩

/-- C5: in vision mode "auto", for every model name and image file, the run
takes the direct-vision path (sends the image to the multimodal
chat-completion route) iff `detect_vision_capability(model)` holds;
`detect_vision_capability` rejects empty and "auto" names and otherwise
accepts exactly the names whose lowercase form matches a listed vision
pattern or contains a vision keyword; mode "force_vision" always takes the
vision path on an image and "force_text" never does. -/
theorem vision_mode_routing (model fname : String) (o : ExtractOracle) :
    detect_vision_capability "" = false ∧
    detect_vision_capability "auto" = false ∧
    (model ≠ "" → model ≠ "auto" →
      (detect_vision_capability model = true ↔
        (∃ p ∈ visionPatterns, regexSearch p (lowerStr model) = true) ∨
        (∃ k ∈ visionKeywords, containsSub k.toList (lowerStr model).toList = true))) ∧
    (isImageFile fname = true →
      (Stage.vision ∈ (extractContent fname "auto" model o).trace ↔
        detect_vision_capability model = true)) ∧
    (isImageFile fname = true →
      Stage.vision ∈ (extractContent fname "force_vision" model o).trace) ∧
    Stage.vision ∉ (extractContent fname "force_text" model o).trace := by
  have hauto : isVisionModel "auto" model = detect_vision_capability model := rfl
  have hforce : isVisionModel "force_vision" model = true := rfl
  have htext : isVisionModel "force_text" model = false := rfl
  refine ⟨by decide, by decide,
    fun h1 h2 => detect_vision_capability_spec model h1 h2, ?_, ?_, ?_⟩
  · intro hImg
    rw [stage_mem_trace]
    simp [visionAttempted, hauto, hImg]
  · intro hImg
    rw [stage_mem_trace]
    simp [visionAttempted, hforce, hImg]
  · rw [stage_mem_trace]
    simp [visionAttempted, htext]

/-- C5 witness: concrete instances of the routing theorem — the model
"llava:13b" is detected, "gpt-4" is not, and a png file goes to the vision
path under mode "auto" exactly accordingly. -/
theorem vision_mode_routing_witness :
    Stage.vision ∈ (extractContent "img.png" "auto" "llava:13b"
      { pathExists := true, visionCall := Except.ok "a cat",
        audioCall := Except.error "e", loaderCall := Except.error "e",
        docFallbackCall := Except.error "e",
        pandocCall := Except.error "e" }).trace := by
  have h := vision_mode_routing "llava:13b" "img.png"
    { pathExists := true, visionCall := Except.ok "a cat",
      audioCall := Except.error "e", loaderCall := Except.error "e",
      docFallbackCall := Except.error "e", pandocCall := Except.error "e" }
  exact (h.2.2.2.1 (by decide)).mpr (by decide)

/-- C6: document extraction is the fallback chain vision → audio → standard
Loader (with `.doc` falling further to the Word loader and then pandoc),
tried in that fixed order; a stage is attempted exactly when it applies and
no earlier stage succeeded (a raised stage falls through instead of failing
the task), and when the model listing succeeds the final chat completion is
invoked exactly once, with the prompt built from whatever content (possibly
empty) was extracted. -/
theorem extraction_fallback_chain (fname prompt vision_mode adminModel : String)
    (requested : Option String) (o : ProcessOracle) :
    ((extractContent fname vision_mode (currentModelOf adminModel) o.extract).trace.Sublist
      [Stage.vision, Stage.audio, Stage.loader, Stage.docFallback, Stage.pandoc]) ∧
    (Stage.vision ∈ (extractContent fname vision_mode (currentModelOf adminModel) o.extract).trace ↔
      (isImageFile fname && isVisionModel vision_mode (currentModelOf adminModel)) = true) ∧
    (Stage.audio ∈ (extractContent fname vision_mode (currentModelOf adminModel) o.extract).trace ↔
      (isAudioFile fname &&
        !visionSuccess fname vision_mode (currentModelOf adminModel) o.extract &&
        o.extract.pathExists) = true) ∧
    (Stage.loader ∈ (extractContent fname vision_mode (currentModelOf adminModel) o.extract).trace ↔
      (!visionSuccess fname vision_mode (currentModelOf adminModel) o.extract &&
        !audioSuccess fname vision_mode (currentModelOf adminModel) o.extract &&
        o.extract.pathExists) = true) ∧
    (Stage.docFallback ∈ (extractContent fname vision_mode (currentModelOf adminModel) o.extract).trace ↔
      (Stage.loader ∈ (extractContent fname vision_mode (currentModelOf adminModel) o.extract).trace ∧
        exFailed o.extract.loaderCall = true ∧ endsWithDotDoc fname = true)) ∧
    (Stage.pandoc ∈ (extractContent fname vision_mode (currentModelOf adminModel) o.extract).trace ↔
      (Stage.docFallback ∈ (extractContent fname vision_mode (currentModelOf adminModel) o.extract).trace ∧
        exFailed o.extract.docFallbackCall = true)) ∧
    (o.availableModels ≠ [] →
      ((processDocumentRun fname prompt requested adminModel vision_mode o).trace.count
          Stage.finalChat = 1 ∧
        (processDocumentRun fname prompt requested adminModel vision_mode o).sentPrompt =
          some (if !(pyStrip (extractContent fname vision_mode (currentModelOf adminModel)
              o.extract).content == "") then
            enrichedPrompt (extractContent fname vision_mode (currentModelOf adminModel)
              o.extract).content prompt
          else
            emptyContentPrompt fname (extractContent fname vision_mode
              (currentModelOf adminModel) o.extract).method prompt))) := by
  refine ⟨trace_sublist_canonical fname vision_mode (currentModelOf adminModel) o.extract,
    ?_, ?_, ?_, ?_, ?_, ?_⟩
  · rw [stage_mem_trace]
    simp [visionAttempted]
  · rw [stage_mem_trace]
    simp [audioAttempted]
  · rw [stage_mem_trace]
    simp [loaderAttempted]
  · rw [stage_mem_trace, stage_mem_trace]
    simp [docFallbackAttempted, loaderAttempted, Bool.and_eq_true, and_assoc]
  · rw [stage_mem_trace, stage_mem_trace]
    simp [pandocAttempted, docFallbackAttempted, Bool.and_eq_true, and_assoc]
  · intro hm
    obtain ⟨sel, hsel⟩ := selectModel_ok requested adminModel o.availableModels hm
    constructor
    · unfold processDocumentRun
      rw [hsel]
      cases hc : o.chatResult <;>
        simp [List.count_append,
          List.count_eq_zero.mpr (finalChat_not_in_extract fname vision_mode
            (currentModelOf adminModel) o.extract)]
    · unfold processDocumentRun
      rw [hsel]
      cases hc : o.chatResult <;> simp

/-- C6 witness: a `.DOC` file whose Loader and Word-loader both raise is
extracted by pandoc, with the chain's trace in the fixed order. -/
theorem extraction_fallback_chain_witness :
    extractContent "report.DOC" "auto" "auto"
      { pathExists := true, visionCall := Except.error "e",
        audioCall := Except.error "e", loaderCall := Except.error "boom",
        docFallbackCall := Except.error "also",
        pandocCall := Except.ok (0, "plain text", "") } =
      { content := "plain text", method := "Pandoc Fallback",
        trace := [Stage.loader, Stage.docFallback, Stage.pandoc] } := by
  decide

end ApiV2
namespace ApiV2

/-! ## List-level facts about the task dictionary -/

theorem findTask_eq_none_iff {ts : List TaskRecord} {tid : Nat} :
    findTask ts tid = none ↔ ∀ t ∈ ts, t.task_id ≠ tid := by
  unfold findTask
  rw [List.find?_eq_none]
  constructor
  · intro h t ht
    have := h t ht
    simpa using this
  · intro h t ht
    simpa using h t ht

theorem findTask_mem {ts : List TaskRecord} {tid : Nat} {t : TaskRecord}
    (h : findTask ts tid = some t) : t ∈ ts ∧ t.task_id = tid := by
  refine ⟨List.mem_of_find?_eq_some h, ?_⟩
  have := List.find?_some h
  simpa using this

theorem findTask_append {ts₁ ts₂ : List TaskRecord} {tid : Nat} :
    findTask (ts₁ ++ ts₂) tid = (findTask ts₁ tid).or (findTask ts₂ tid) :=
  List.find?_append

theorem findTask_of_mem_nodup {ts : List TaskRecord} {t : TaskRecord}
    (hnd : (ts.map (fun u => u.task_id)).Nodup) (ht : t ∈ ts) :
    findTask ts t.task_id = some t := by
  induction ts with
  | nil => exact absurd ht (List.not_mem_nil t)
  | cons h rest ih =>
    rcases List.mem_cons.mp ht with rfl | hmem
    · simp [findTask, List.find?]
    · have hne : h.task_id ≠ t.task_id := by
        intro he
        have : h.task_id ∈ rest.map (fun u => u.task_id) := he ▸
          List.mem_map.mpr ⟨t, hmem, rfl⟩
        exact (List.nodup_cons.mp hnd).1 this
      have : (h.task_id == t.task_id) = false := by simpa using hne
      simp only [findTask, List.find?, this]
      exact ih (List.nodup_cons.mp hnd).2 hmem

theorem findTask_updTask_ne {ts : List TaskRecord} {tid tid' : Nat}
    {f : TaskRecord → TaskRecord} (hf : ∀ t, (f t).task_id = t.task_id)
    (hne : tid' ≠ tid) :
    findTask (updTask tid f ts) tid' = findTask ts tid' := by
  induction ts with
  | nil => rfl
  | cons h rest ih =>
    show findTask ((if h.task_id == tid then f h else h) :: updTask tid f rest) tid' = _
    by_cases hh : h.task_id = tid
    · have h1 : (h.task_id == tid) = true := by simpa using hh
      have h2 : ((f h).task_id == tid') = false := by
        simp [hf h, hh]
        exact fun he => hne he.symm
      have h3 : (h.task_id == tid') = false := by
        simp [hh]
        exact fun he => hne he.symm
      simp only [findTask, List.find?, h1, if_true, h2, h3]
      exact ih
    · have h1 : (h.task_id == tid) = false := by simpa using hh
      simp only [findTask, List.find?, h1, Bool.false_eq_true, if_false]
      cases h2 : h.task_id == tid'
      · exact ih
      · rfl

theorem findTask_updTask_self {ts : List TaskRecord} {tid : Nat}
    {f : TaskRecord → TaskRecord} (hf : ∀ t, (f t).task_id = t.task_id) :
    findTask (updTask tid f ts) tid = (findTask ts tid).map f := by
  induction ts with
  | nil => rfl
  | cons h rest ih =>
    show findTask ((if h.task_id == tid then f h else h) :: updTask tid f rest) tid = _
    cases h1 : h.task_id == tid
    · simp only [Bool.false_eq_true, if_false, findTask, List.find?, h1]
      exact ih
    · simp only [if_true, findTask, List.find?]
      have h2 : ((f h).task_id == tid) = true := by rw [hf h]; exact h1
      simp only [h2, if_true, h1]
      rfl

theorem updTask_map_id {ts : List TaskRecord} {tid : Nat}
    {f : TaskRecord → TaskRecord} (hf : ∀ t, (f t).task_id = t.task_id) :
    (updTask tid f ts).map (fun u => u.task_id) = ts.map (fun u => u.task_id) := by
  unfold updTask
  rw [List.map_map]
  apply List.map_congr_left
  intro t _
  by_cases h : t.task_id = tid <;> simp [h, hf t]

theorem mem_updTask {ts : List TaskRecord} {tid : Nat}
    {f : TaskRecord → TaskRecord} {u : TaskRecord} (hu : u ∈ updTask tid f ts) :
    ∃ t ∈ ts, u = if t.task_id == tid then f t else t := by
  rcases List.mem_map.mp hu with ⟨t, ht, he⟩
  exact ⟨t, ht, he.symm⟩

theorem findTask_filter_kept {ts : List TaskRecord} {tid : Nat} {t : TaskRecord}
    {p : TaskRecord → Bool} (h : findTask ts tid = some t) (hp : p t = true) :
    findTask (ts.filter p) tid = some t := by
  induction ts with
  | nil => simp [findTask] at h
  | cons hd rest ih =>
    by_cases hh : hd.task_id = tid
    · have h1 : (hd.task_id == tid) = true := by simpa using hh
      have : t = hd := by
        simp only [findTask, List.find?, h1, if_true] at h
        exact (Option.some_inj.mp h).symm
      subst this
      rw [List.filter_cons, hp]
      simp only [findTask, List.find?, h1]
    · have h1 : (hd.task_id == tid) = false := by simpa using hh
      have hrest : findTask rest tid = some t := by
        simpa only [findTask, List.find?, h1, Bool.false_eq_true, if_false] using h
      rw [List.filter_cons]
      cases hpd : p hd
      · simpa using ih hrest
      · simp only [if_true, findTask, List.find?, h1, Bool.false_eq_true, if_false]
        exact ih hrest

theorem findTask_filter_dropped {ts : List TaskRecord} {tid : Nat} {t : TaskRecord}
    {p : TaskRecord → Bool}
    (hnd : (ts.map (fun u => u.task_id)).Nodup)
    (h : findTask ts tid = some t) (hp : p t = false) :
    findTask (ts.filter p) tid = none := by
  rw [findTask_eq_none_iff]
  intro u hu he
  have humem : u ∈ ts := List.mem_of_mem_filter hu
  have hpu : p u = true := List.of_mem_filter hu
  have h2 : findTask ts tid = some u := by
    rw [← he]; exact findTask_of_mem_nodup hnd humem
  have heq : u = t := by
    rw [h2] at h; exact Option.some_inj.mp h
  rw [heq, hp] at hpu
  exact Bool.false_ne_true hpu

end ApiV2
namespace ApiV2

/-- The adapter class does not define `update_task_status`. -/
theorem adapter_no_update_task_status :
    adapterHasMethod "update_task_status" = false := by decide

/-- The state `POST /process` has built when it reaches the concurrency
check: file record inserted, task created pending. -/
def postCreatedState (uid fid now : Nat) (s : SysState) : SysState :=
  { s with
    dbFiles := s.dbFiles ++ [fid],
    tasks := s.tasks ++
      [{ task_id := s.nextId, user_id := uid, status := TaskStatus.pending,
         created_at := now, progress := 0 }],
    nextId := s.nextId + 1 }

theorem applyPost_eq (uid fid now : Nat) (s : SysState) :
    applyPost uid fid now s =
      (if checkConcurrencyLimit (postCreatedState uid fid now s) then
        ({ postCreatedState uid fid now s with
            scheduled := s.scheduled ++ [s.nextId] },
         Reply.taskResp s.nextId TaskStatus.processing none)
       else (postCreatedState uid fid now s, Reply.httpError 500)) := by
  unfold applyPost createTask uploadFileRecord queuedBranch postCreatedState
  rw [adapter_no_update_task_status]
  simp

/-- The scheduled-set invariant, one entry. -/
def schedOk (s : SysState) (tid : Nat) : Bool :=
  match findTask s.tasks tid with
  | some t => t.status == TaskStatus.pending
  | none => false

/-- The reachable-state invariant: task ids are below the fresh counter and
pairwise distinct, and every scheduled background job points at a pending
task. -/
def Inv (s : SysState) : Prop :=
  (∀ t ∈ s.tasks, t.task_id < s.nextId) ∧
  (s.tasks.map (fun u => u.task_id)).Nodup ∧
  (∀ tid ∈ s.scheduled, schedOk s tid = true)

theorem inv_initState (m : Nat) : Inv (initState m) := by
  refine ⟨?_, ?_, ?_⟩ <;> simp [initState]

theorem inv_postCreated (uid fid now : Nat) {s : SysState} (hinv : Inv s) :
    Inv (postCreatedState uid fid now s) ∧
    findTask (postCreatedState uid fid now s).tasks s.nextId =
      some { task_id := s.nextId, user_id := uid, status := TaskStatus.pending,
             created_at := now, progress := 0 } := by
  obtain ⟨hids, hnd, hsched⟩ := hinv
  have hnone : findTask s.tasks s.nextId = none := by
    rw [findTask_eq_none_iff]
    intro t ht
    exact Nat.ne_of_lt (hids t ht)
  have htasks : (postCreatedState uid fid now s).tasks = s.tasks ++
      [{ task_id := s.nextId, user_id := uid, status := TaskStatus.pending,
         created_at := now, progress := 0 }] := rfl
  have hfind : findTask (postCreatedState uid fid now s).tasks s.nextId =
      some { task_id := s.nextId, user_id := uid, status := TaskStatus.pending,
             created_at := now, progress := 0 } := by
    rw [htasks, findTask_append, hnone]
    simp [findTask, List.find?]
  refine ⟨⟨?_, ?_, ?_⟩, hfind⟩
  · rw [htasks]
    intro t ht
    show t.task_id < s.nextId + 1
    rcases List.mem_append.mp ht with h | h
    · exact Nat.lt_succ_of_lt (hids t h)
    · rcases List.mem_singleton.mp h with rfl
      exact Nat.lt_succ_self _
  · rw [htasks, List.map_append, List.nodup_append]
    refine ⟨hnd, by simp, ?_⟩
    intro x hx hx2
    rcases List.mem_map.mp hx with ⟨t, ht, rfl⟩
    simp only [List.map_cons, List.map_nil, List.mem_singleton] at hx2
    exact absurd hx2 (Nat.ne_of_lt (hids t ht))
  · intro tid htid
    have h := hsched tid htid
    unfold schedOk at h ⊢
    rw [htasks, findTask_append]
    cases hf : findTask s.tasks tid with
    | none => rw [hf] at h; exact absurd h (by simp)
    | some t => rw [hf] at h; simpa using h

theorem inv_applyPost {uid fid now : Nat} {s s' : SysState} {r : Reply}
    (hinv : Inv s) (h : applyPost uid fid now s = (s', r)) : Inv s' := by
  rw [applyPost_eq] at h
  obtain ⟨hinv2, hfind⟩ := inv_postCreated uid fid now hinv
  by_cases hc : checkConcurrencyLimit (postCreatedState uid fid now s) = true
  · rw [if_pos hc] at h
    injection h with h1 h2
    subst h1
    obtain ⟨hids, hnd, hsched⟩ := hinv2
    refine ⟨hids, hnd, ?_⟩
    intro tid htid
    have hsame : schedOk { postCreatedState uid fid now s with
        scheduled := s.scheduled ++ [s.nextId] } tid =
        schedOk (postCreatedState uid fid now s) tid := rfl
    rw [hsame]
    rcases List.mem_append.mp htid with hmem | hmem
    · exact hsched tid hmem
    · rcases List.mem_singleton.mp hmem with rfl
      unfold schedOk
      rw [hfind]
      rfl
  · rw [if_neg hc] at h
    injection h with h1 h2
    subst h1
    exact hinv2

end ApiV2
namespace ApiV2

/-- The status transitions the module's code performs (adapter.py 180, 637,
654; the queued write of api_v2.py 201 would give pending → queued if it
were reachable). -/
def allowedTransition : TaskStatus → TaskStatus → Bool
  | TaskStatus.pending, TaskStatus.processing => true
  | TaskStatus.processing, TaskStatus.completed => true
  | TaskStatus.processing, TaskStatus.failed => true
  | TaskStatus.pending, TaskStatus.queued => true
  | _, _ => false

/-- What one step guarantees about every task record: statuses move only
along the lifecycle, records disappear only under cleanup, terminal records
are immutable, new records start pending at progress 0, and a pending task
with no scheduled background job stays pending and unscheduled. -/
def StepFacts (e : Event) (s s' : SysState) : Prop :=
  (∀ t ∈ s.tasks, ∀ t', findTask s'.tasks t.task_id = some t' →
     t'.status = t.status ∨ allowedTransition t.status t'.status = true) ∧
  (∀ t ∈ s.tasks, findTask s'.tasks t.task_id = none → ∃ now, e = Event.cleanup now) ∧
  (∀ t ∈ s.tasks, (t.status = TaskStatus.completed ∨ t.status = TaskStatus.failed) →
     findTask s'.tasks t.task_id = some t ∨
       (∃ now, e = Event.cleanup now ∧ findTask s'.tasks t.task_id = none)) ∧
  (∀ t' ∈ s'.tasks, findTask s.tasks t'.task_id = none →
     t'.status = TaskStatus.pending ∧ t'.progress = 0) ∧
  (∀ tid t, findTask s.tasks tid = some t → t.status = TaskStatus.pending →
     tid ∉ s.scheduled →
     ∃ t', findTask s'.tasks tid = some t' ∧ t'.status = TaskStatus.pending ∧
       tid ∉ s'.scheduled)

theorem stepFacts_of_eq {e : Event} {s s' : SysState}
    (hnd : (s.tasks.map (fun u => u.task_id)).Nodup) (he : s' = s) :
    StepFacts e s s' := by
  subst he
  refine ⟨?_, ?_, ?_, ?_, ?_⟩
  · intro t ht t' hft
    rw [findTask_of_mem_nodup hnd ht] at hft
    exact Or.inl (by rw [← Option.some_inj.mp hft])
  · intro t ht hn
    rw [findTask_of_mem_nodup hnd ht] at hn
    exact absurd hn (by simp)
  · intro t ht _
    exact Or.inl (findTask_of_mem_nodup hnd ht)
  · intro t' ht' hn
    rw [findTask_of_mem_nodup hnd ht'] at hn
    exact absurd hn (by simp)
  · intro tid t hft hp hns
    exact ⟨t, hft, hp, hns⟩

theorem stepFacts_post {uid fid now : Nat} {s s' : SysState} {r : Reply}
    (hinv : Inv s) (h : applyPost uid fid now s = (s', r)) :
    StepFacts (Event.post uid fid now) s s' := by
  obtain ⟨hids, hnd, hsched⟩ := hinv
  rw [applyPost_eq] at h
  have htasks : s'.tasks = s.tasks ++
      [{ task_id := s.nextId, user_id := uid, status := TaskStatus.pending,
         created_at := now, progress := 0 }] := by
    by_cases hc : checkConcurrencyLimit (postCreatedState uid fid now s) = true
    · rw [if_pos hc] at h; injection h with h1 _; rw [← h1]; rfl
    · rw [if_neg hc] at h; injection h with h1 _; rw [← h1]; rfl
  have hschedsub : ∀ tid ∈ s'.scheduled, tid ∈ s.scheduled ∨ tid = s.nextId := by
    by_cases hc : checkConcurrencyLimit (postCreatedState uid fid now s) = true
    · rw [if_pos hc] at h; injection h with h1 _
      intro tid htid
      rw [← h1] at htid
      have : tid ∈ s.scheduled ++ [s.nextId] := htid
      rcases List.mem_append.mp this with hm | hm
      · exact Or.inl hm
      · exact Or.inr (List.mem_singleton.mp hm)
    · rw [if_neg hc] at h; injection h with h1 _
      intro tid htid
      rw [← h1] at htid
      exact Or.inl htid
  have hold : ∀ t ∈ s.tasks, findTask s'.tasks t.task_id = some t := by
    intro t ht
    rw [htasks, findTask_append, findTask_of_mem_nodup hnd ht]
    rfl
  refine ⟨?_, ?_, ?_, ?_, ?_⟩
  · intro t ht t' hft
    rw [hold t ht] at hft
    exact Or.inl (by rw [← Option.some_inj.mp hft])
  · intro t ht hn
    rw [hold t ht] at hn
    exact absurd hn (by simp)
  · intro t ht _
    exact Or.inl (hold t ht)
  · intro t' ht' hn
    rw [htasks] at ht'
    rcases List.mem_append.mp ht' with hm | hm
    · rw [findTask_eq_none_iff] at hn
      exact absurd rfl (hn t' hm)
    · rcases List.mem_singleton.mp hm with rfl
      exact ⟨rfl, rfl⟩
  · intro tid t hft hp hns
    have hm := findTask_mem hft
    refine ⟨t, ?_, hp, ?_⟩
    · rw [htasks, findTask_append, hft]; rfl
    · intro hcon
      rcases hschedsub tid hcon with hm2 | hm2
      · exact hns hm2
      · rw [hm2] at hm
        have hlt := hids t hm.1
        rw [hm.2] at hlt
        exact Nat.lt_irrefl _ hlt

end ApiV2
namespace ApiV2

theorem stepFacts_updTask {e : Event} {s s' : SysState} {tid : Nat}
    {t₀ : TaskRecord} {f : TaskRecord → TaskRecord}
    (hnd : (s.tasks.map (fun u => u.task_id)).Nodup)
    (hf : ∀ t, (f t).task_id = t.task_id)
    (hfind : findTask s.tasks tid = some t₀)
    (htasks : s'.tasks = updTask tid f s.tasks)
    (hschedsub : ∀ x, x ∈ s'.scheduled → x ∈ s.scheduled)
    (htrans : (f t₀).status = t₀.status ∨
      allowedTransition t₀.status (f t₀).status = true)
    (hterm : t₀.status ≠ TaskStatus.completed ∧ t₀.status ≠ TaskStatus.failed)
    (hnotstuck : t₀.status ≠ TaskStatus.pending ∨ tid ∈ s.scheduled) :
    StepFacts e s s' := by
  have hfind_ne : ∀ tid', tid' ≠ tid →
      findTask s'.tasks tid' = findTask s.tasks tid' := by
    intro tid' hne
    rw [htasks]
    exact findTask_updTask_ne hf hne
  have hfind_self : findTask s'.tasks tid = some (f t₀) := by
    rw [htasks, findTask_updTask_self hf, hfind]
    rfl
  refine ⟨?_, ?_, ?_, ?_, ?_⟩
  · intro t ht t' hft
    by_cases hid : t.task_id = tid
    · have : findTask s.tasks tid = some t := hid ▸ findTask_of_mem_nodup hnd ht
      have ht0 : t = t₀ := Option.some_inj.mp (this.symm.trans hfind)
      rw [hid, hfind_self] at hft
      rw [← Option.some_inj.mp hft, ht0]
      exact htrans
    · rw [hfind_ne t.task_id hid, findTask_of_mem_nodup hnd ht] at hft
      exact Or.inl (by rw [← Option.some_inj.mp hft])
  · intro t ht hn
    by_cases hid : t.task_id = tid
    · rw [hid, hfind_self] at hn
      exact absurd hn (by simp)
    · rw [hfind_ne t.task_id hid, findTask_of_mem_nodup hnd ht] at hn
      exact absurd hn (by simp)
  · intro t ht hst
    by_cases hid : t.task_id = tid
    · have : findTask s.tasks tid = some t := hid ▸ findTask_of_mem_nodup hnd ht
      have ht0 : t = t₀ := Option.some_inj.mp (this.symm.trans hfind)
      rcases hst with h1 | h1
      · exact absurd (ht0 ▸ h1) hterm.1
      · exact absurd (ht0 ▸ h1) hterm.2
    · exact Or.inl (by rw [hfind_ne t.task_id hid]; exact findTask_of_mem_nodup hnd ht)
  · intro t' ht' hn
    rw [htasks] at ht'
    rcases mem_updTask ht' with ⟨t, ht, he⟩
    have hid : t'.task_id = t.task_id := by
      rw [he]
      by_cases hh : t.task_id = tid
      · have : (t.task_id == tid) = true := by simpa using hh
        rw [this]
        simp [hf t]
      · have : (t.task_id == tid) = false := by simpa using hh
        rw [this]
        simp
    rw [hid, findTask_of_mem_nodup hnd ht] at hn
    exact absurd hn (by simp)
  · intro tid' t hft hp hns
    by_cases hid : tid' = tid
    · subst hid
      have ht0 : t = t₀ := Option.some_inj.mp (hft.symm.trans hfind)
      rcases hnotstuck with h1 | h1
      · exact absurd (ht0 ▸ hp) h1
      · exact absurd h1 hns
    · refine ⟨t, ?_, hp, fun hc => hns (hschedsub tid' hc)⟩
      rw [hfind_ne tid' hid]
      exact hft

theorem inv_updTask {s s' : SysState} {tid : Nat} {t₀ : TaskRecord}
    {f : TaskRecord → TaskRecord} (hinv : Inv s)
    (hf : ∀ t, (f t).task_id = t.task_id)
    (hfind : findTask s.tasks tid = some t₀)
    (htasks : s'.tasks = updTask tid f s.tasks)
    (hnext : s'.nextId = s.nextId)
    (hschedsub : ∀ x, x ∈ s'.scheduled → x ∈ s.scheduled)
    (hcase : tid ∉ s'.scheduled ∨ ∀ t, (f t).status = t.status) :
    Inv s' := by
  obtain ⟨hids, hnd, hsched⟩ := hinv
  refine ⟨?_, ?_, ?_⟩
  · intro t ht
    rw [htasks] at ht
    rcases mem_updTask ht with ⟨u, hu, he⟩
    rw [hnext, he]
    by_cases hh : u.task_id = tid
    · have : (u.task_id == tid) = true := by simpa using hh
      rw [this]
      simp only [if_true]
      rw [hf u]
      exact hids u hu
    · have : (u.task_id == tid) = false := by simpa using hh
      rw [this]
      simp only [Bool.false_eq_true, if_false]
      exact hids u hu
  · rw [htasks, updTask_map_id hf]
    exact hnd
  · intro tid' htid'
    have hmem := hschedsub tid' htid'
    have hok := hsched tid' hmem
    unfold schedOk at hok ⊢
    by_cases hid : tid' = tid
    · subst hid
      rcases hcase with h1 | h1
      · exact absurd htid' h1
      · rw [htasks, findTask_updTask_self hf, hfind]
        show ((f t₀).status == TaskStatus.pending) = true
        rw [h1 t₀]
        rw [hfind] at hok
        exact hok
    · rw [htasks, findTask_updTask_ne hf hid]
      exact hok

end ApiV2
namespace ApiV2

theorem applyGetStatus_state (tid : Nat) (s : SysState) :
    (applyGetStatus tid s).1 = s := by
  unfold applyGetStatus
  cases hf : findTask s.tasks tid <;> rfl

theorem applyCancel_state (tid now : Nat) (s : SysState) :
    (applyCancel tid now s).1 = s := by
  unfold applyCancel
  rw [adapter_no_update_task_status]
  cases hf : findTask s.tasks tid with
  | none => rfl
  | some t =>
    cases hc : (t.status == TaskStatus.completed || t.status == TaskStatus.failed) <;>
      simp [hc]

theorem pending_cleanupKeep {now : Nat} {t : TaskRecord}
    (h : t.status ≠ TaskStatus.completed) (h2 : t.status ≠ TaskStatus.failed) :
    cleanupKeep now t = true := by
  unfold cleanupKeep
  have h1 : (t.status == TaskStatus.completed) = false := by simpa using h
  have h3 : (t.status == TaskStatus.failed) = false := by simpa using h2
  rw [h1, h3]
  rfl

theorem inv_cleanup {now : Nat} {s : SysState} (hinv : Inv s) :
    Inv (applyCleanup now s) := by
  obtain ⟨hids, hnd, hsched⟩ := hinv
  refine ⟨?_, ?_, ?_⟩
  · intro t ht
    exact hids t (List.mem_of_mem_filter ht)
  · show ((s.tasks.filter (cleanupKeep now)).map (fun u => u.task_id)).Nodup
    exact ((List.filter_sublist s.tasks).map (fun u => u.task_id)).nodup hnd
  · intro tid htid
    have hok := hsched tid htid
    unfold schedOk at hok ⊢
    cases hf : findTask s.tasks tid with
    | none => rw [hf] at hok; exact absurd hok (by simp)
    | some t =>
      rw [hf] at hok
      have hp : t.status = TaskStatus.pending := by simpa using hok
      have hkeep : cleanupKeep now t = true :=
        pending_cleanupKeep (by rw [hp]; intro hc; cases hc)
          (by rw [hp]; intro hc; cases hc)
      show (match findTask (s.tasks.filter (cleanupKeep now)) tid with
        | some t => t.status == TaskStatus.pending
        | none => false) = true
      rw [findTask_filter_kept hf hkeep]
      simpa using hok

theorem stepFacts_cleanup {now : Nat} {s : SysState}
    (hnd : (s.tasks.map (fun u => u.task_id)).Nodup) :
    StepFacts (Event.cleanup now) s (applyCleanup now s) := by
  have htasks : (applyCleanup now s).tasks = s.tasks.filter (cleanupKeep now) := rfl
  refine ⟨?_, ?_, ?_, ?_, ?_⟩
  · intro t ht t' hft
    rw [htasks] at hft
    obtain ⟨hmem', hid'⟩ := findTask_mem hft
    have hmem : t' ∈ s.tasks := List.mem_of_mem_filter hmem'
    have h1 : findTask s.tasks t.task_id = some t := findTask_of_mem_nodup hnd ht
    have h2 : findTask s.tasks t'.task_id = some t' := findTask_of_mem_nodup hnd hmem
    rw [hid'] at h2
    exact Or.inl (by rw [Option.some_inj.mp (h2.symm.trans h1)])
  · intro t ht hn
    exact ⟨now, rfl⟩
  · intro t ht hst
    have h1 : findTask s.tasks t.task_id = some t := findTask_of_mem_nodup hnd ht
    cases hk : cleanupKeep now t
    · right
      exact ⟨now, rfl, by rw [htasks]; exact findTask_filter_dropped hnd h1 hk⟩
    · left
      rw [htasks]
      exact findTask_filter_kept h1 hk
  · intro t' ht' hn
    rw [htasks] at ht'
    have hmem : t' ∈ s.tasks := List.mem_of_mem_filter ht'
    rw [findTask_of_mem_nodup hnd hmem] at hn
    exact absurd hn (by simp)
  · intro tid t hft hp hns
    have hkeep : cleanupKeep now t = true :=
      pending_cleanupKeep (by rw [hp]; intro hc; cases hc)
        (by rw [hp]; intro hc; cases hc)
    refine ⟨t, ?_, hp, hns⟩
    rw [htasks]
    exact findTask_filter_kept hft hkeep

end ApiV2
namespace ApiV2

/-- One enabled step preserves the invariant and satisfies the per-task
step facts. -/
theorem step_all {e : Event} {s s' : SysState} {r : Reply} (hinv : Inv s)
    (h : applyEvent e s = some (s', r)) : Inv s' ∧ StepFacts e s s' := by
  cases e with
  | post uid fid now =>
    simp only [applyEvent] at h
    injection h with h1
    exact ⟨inv_applyPost hinv h1, stepFacts_post hinv h1⟩
  | bgStart tid now =>
    simp only [applyEvent] at h
    cases hc : s.scheduled.contains tid
    · rw [hc] at h
      exact absurd h (by simp)
    · rw [hc] at h
      simp only [if_true] at h
      injection h with h1
      injection h1 with hs hr
      subst hs
      have hmem : tid ∈ s.scheduled := by
        have := hc; simpa using this
      have hok := hinv.2.2 tid hmem
      unfold schedOk at hok
      cases hfind : findTask s.tasks tid with
      | none => rw [hfind] at hok; exact absurd hok (by simp)
      | some t₀ =>
        rw [hfind] at hok
        have hp : t₀.status = TaskStatus.pending := by simpa using hok
        have hf : ∀ t : TaskRecord,
            (({ t with status := TaskStatus.processing, started_at := some now } :
              TaskRecord)).task_id = t.task_id :=
          fun t => rfl
        have hschedsub : ∀ x, x ∈ (s.scheduled.filter (fun y => y != tid)) →
            x ∈ s.scheduled := fun x hx => List.mem_of_mem_filter hx
        constructor
        · refine inv_updTask hinv hf hfind rfl rfl hschedsub (Or.inl ?_)
          intro hcon
          have := List.of_mem_filter hcon
          simp at this
        · refine stepFacts_updTask hinv.2.1 hf hfind rfl hschedsub ?_ ?_ (Or.inr hmem)
          · right
            rw [hp]
            rfl
          · rw [hp]
            refine ⟨?_, ?_⟩ <;> decide
  | bgProgress tid p =>
    simp only [applyEvent] at h
    cases hfind : findTask s.tasks tid with
    | none => rw [hfind] at h; exact absurd h (by simp)
    | some t₀ =>
      rw [hfind] at h
      simp only at h
      cases hg : (t₀.status == TaskStatus.processing && (p == 10 || p == 50 || p == 60))
      · rw [hg] at h
        exact absurd h (by simp)
      · rw [hg] at h
        simp only [if_true] at h
        injection h with h1
        injection h1 with hs hr
        subst hs
        have hproc : t₀.status = TaskStatus.processing := by
          have := (Bool.and_eq_true_iff.mp hg).1
          simpa using this
        have hf : ∀ t : TaskRecord,
            (({ t with progress := p } : TaskRecord)).task_id = t.task_id :=
          fun t => rfl
        constructor
        · exact inv_updTask hinv hf hfind rfl rfl (fun x hx => hx)
            (Or.inr (fun t => rfl))
        · refine stepFacts_updTask hinv.2.1 hf hfind rfl (fun x hx => hx)
            (Or.inl rfl) ?_ (Or.inl ?_)
          · rw [hproc]
            refine ⟨?_, ?_⟩ <;> decide
          · rw [hproc]
            intro hh
            cases hh
  | bgFinish tid outcome now =>
    simp only [applyEvent] at h
    cases hfind : findTask s.tasks tid with
    | none => rw [hfind] at h; exact absurd h (by simp)
    | some t₀ =>
      rw [hfind] at h
      simp only at h
      cases hg : (t₀.status == TaskStatus.processing)
      · rw [hg] at h
        exact absurd h (by simp)
      · rw [hg] at h
        simp only [if_true] at h
        have hproc : t₀.status = TaskStatus.processing := by simpa using hg
        have hterm : t₀.status ≠ TaskStatus.completed ∧
            t₀.status ≠ TaskStatus.failed := by
          rw [hproc]
          refine ⟨?_, ?_⟩ <;> decide
        have hstuck : t₀.status ≠ TaskStatus.pending := by
          rw [hproc]
          intro hh
          cases hh
        cases outcome with
        | success content =>
          injection h with h1
          injection h1 with hs hr
          subst hs
          have hf : ∀ t : TaskRecord,
              (({ t with status := TaskStatus.completed, progress := 100, result := some content, completed_at := some now } :
                TaskRecord)).task_id = t.task_id := fun t => rfl
          have hnotsched : tid ∉ s.scheduled := by
            intro hmem
            have hok := hinv.2.2 tid hmem
            unfold schedOk at hok
            rw [hfind] at hok
            have hok2 : t₀.status = TaskStatus.pending := by simpa using hok
            rw [hproc] at hok2
            exact absurd hok2 (by decide)
          constructor
          · exact inv_updTask hinv hf hfind rfl rfl (fun x hx => hx)
              (Or.inl hnotsched)
          · exact stepFacts_updTask hinv.2.1 hf hfind rfl (fun x hx => hx)
              (Or.inr (by rw [hproc]; rfl)) hterm (Or.inl hstuck)
        | failure msg =>
          injection h with h1
          injection h1 with hs hr
          subst hs
          have hf : ∀ t : TaskRecord,
              (({ t with status := TaskStatus.failed, error := some msg, error_type := some ErrorType.processing_error, failed_at := some now } :
                TaskRecord)).task_id = t.task_id :=
            fun t => rfl
          have hnotsched : tid ∉ s.scheduled := by
            intro hmem
            have hok := hinv.2.2 tid hmem
            unfold schedOk at hok
            rw [hfind] at hok
            have hok2 : t₀.status = TaskStatus.pending := by simpa using hok
            rw [hproc] at hok2
            exact absurd hok2 (by decide)
          constructor
          · exact inv_updTask hinv hf hfind rfl rfl (fun x hx => hx)
              (Or.inl hnotsched)
          · exact stepFacts_updTask hinv.2.1 hf hfind rfl (fun x hx => hx)
              (Or.inr (by rw [hproc]; rfl)) hterm (Or.inl hstuck)
  | getStatus tid =>
    simp only [applyEvent] at h
    injection h with h1
    have hs : s' = s := by
      have := congrArg Prod.fst h1
      rw [applyGetStatus_state] at this
      exact this.symm
    subst hs
    exact ⟨hinv, stepFacts_of_eq hinv.2.1 rfl⟩
  | cancel tid now =>
    simp only [applyEvent] at h
    injection h with h1
    have hs : s' = s := by
      have := congrArg Prod.fst h1
      rw [applyCancel_state] at this
      exact this.symm
    subst hs
    exact ⟨hinv, stepFacts_of_eq hinv.2.1 rfl⟩
  | cleanup now =>
    simp only [applyEvent] at h
    injection h with h1
    injection h1 with hs hr
    subst hs
    exact ⟨inv_cleanup hinv, stepFacts_cleanup hinv.2.1⟩

/-- The invariant holds in every reachable state. -/
theorem inv_applyEvents {es : List Event} {s s' : SysState} (hinv : Inv s)
    (h : applyEvents es s = some s') : Inv s' := by
  induction es generalizing s with
  | nil =>
    simp only [applyEvents] at h
    rw [← Option.some_inj.mp h]
    exact hinv
  | cons e rest ih =>
    simp only [applyEvents] at h
    cases he : applyEvent e s with
    | none => rw [he] at h; exact absurd h (by simp)
    | some p =>
      obtain ⟨s1, r1⟩ := p
      rw [he] at h
      exact ih (step_all hinv he).1 h

/-- A pending task with no scheduled background job stays pending (and
unscheduled) under every sequence of events: nothing ever dispatches it. -/
theorem pending_stuck {es : List Event} {s s' : SysState} (hinv : Inv s)
    (h : applyEvents es s = some s') {tid : Nat} {t : TaskRecord}
    (hfind : findTask s.tasks tid = some t)
    (hp : t.status = TaskStatus.pending) (hns : tid ∉ s.scheduled) :
    ∃ t', findTask s'.tasks tid = some t' ∧
      t'.status = TaskStatus.pending ∧ tid ∉ s'.scheduled := by
  induction es generalizing s t with
  | nil =>
    simp only [applyEvents] at h
    rw [← Option.some_inj.mp h]
    exact ⟨t, hfind, hp, hns⟩
  | cons e rest ih =>
    simp only [applyEvents] at h
    cases he : applyEvent e s with
    | none => rw [he] at h; exact absurd h (by simp)
    | some p =>
      obtain ⟨s1, r1⟩ := p
      rw [he] at h
      obtain ⟨hinv', hfacts⟩ := step_all hinv he
      obtain ⟨t', hf', hp', hns'⟩ := hfacts.2.2.2.2 tid t hfind hp hns
      exact ih hinv' h hf' hp' hns'

end ApiV2
namespace ApiV2

/-! ## Claim theorems on the task state machine -/

/-- C3: tasks created by `create_task` start pending with progress 0.0; a
task's status always lies in the five-value enum; across any enabled step
from any reachable state a status is unchanged or moves along
pending → processing → completed/failed (or pending → queued, the write the
queued branch would perform); a completed or failed record never changes
again and disappears only under `cleanup_old_tasks`. -/
theorem task_lifecycle (m : Nat) (es : List Event) (s : SysState)
    (hreach : applyEvents es (initState m) = some s)
    (e : Event) (s' : SysState) (r : Reply)
    (hstep : applyEvent e s = some (s', r)) :
    (∀ (uid now : Nat) (s0 : SysState), (createTask uid now s0).2.tasks =
      s0.tasks ++ [{ task_id := s0.nextId, user_id := uid, status := TaskStatus.pending, created_at := now, progress := 0 }]) ∧
    (∀ a b, allowedTransition a b = true ↔
      ((a = TaskStatus.pending ∧ b = TaskStatus.processing) ∨
       (a = TaskStatus.processing ∧ b = TaskStatus.completed) ∨
       (a = TaskStatus.processing ∧ b = TaskStatus.failed) ∨
       (a = TaskStatus.pending ∧ b = TaskStatus.queued))) ∧
    (∀ t ∈ s.tasks, t.status = TaskStatus.pending ∨
      t.status = TaskStatus.processing ∨ t.status = TaskStatus.completed ∨
      t.status = TaskStatus.failed ∨ t.status = TaskStatus.queued) ∧
    (∀ t ∈ s.tasks, ∀ t', findTask s'.tasks t.task_id = some t' →
      t'.status = t.status ∨ allowedTransition t.status t'.status = true) ∧
    (∀ t ∈ s.tasks, (t.status = TaskStatus.completed ∨ t.status = TaskStatus.failed) →
      findTask s'.tasks t.task_id = some t ∨
        (∃ cnow, e = Event.cleanup cnow ∧ findTask s'.tasks t.task_id = none)) ∧
    (∀ t ∈ s.tasks, findTask s'.tasks t.task_id = none → ∃ cnow, e = Event.cleanup cnow) ∧
    (∀ t' ∈ s'.tasks, findTask s.tasks t'.task_id = none →
      t'.status = TaskStatus.pending ∧ t'.progress = 0) := by
  have hinv : Inv s := inv_applyEvents (inv_initState m) hreach
  obtain ⟨_, hfacts⟩ := step_all hinv hstep
  obtain ⟨h1, h2, h3, h4, _⟩ := hfacts
  refine ⟨fun uid now s0 => rfl, ?_, ?_, h1, h3, h2, h4⟩
  · intro a b
    cases a <;> cases b <;> simp [allowedTransition]
  · intro t _
    cases ht : t.status <;> simp

/-- C3 witness: from the reachable one-task state after a POST, the
background start moves the pending task along an allowed transition. -/
theorem task_lifecycle_witness :
    TaskStatus.processing = TaskStatus.pending ∨
      allowedTransition TaskStatus.pending TaskStatus.processing = true := by
  have h := task_lifecycle 1 [Event.post 0 0 5]
    { tasks := [{ task_id := 0, user_id := 0, status := TaskStatus.pending,
                  created_at := 5, progress := 0 }],
      dbFiles := [0], scheduled := [0], nextId := 1, maxConcurrent := 1 }
    (by decide) (Event.bgStart 0 7)
    { tasks := [{ task_id := 0, user_id := 0, status := TaskStatus.processing,
                  created_at := 5, progress := 0, started_at := some 7 }],
      dbFiles := [0], scheduled := [], nextId := 1, maxConcurrent := 1 }
    Reply.silent (by decide)
  exact h.2.2.2.1
    { task_id := 0, user_id := 0, status := TaskStatus.pending, created_at := 5, progress := 0 }
    (by decide)
    { task_id := 0, user_id := 0, status := TaskStatus.processing, created_at := 5, progress := 0, started_at := some 7 }
    (by decide)

/-- C4: `check_concurrency_limit` is True iff strictly fewer than
`API_V2_MAX_CONCURRENT` task records are processing; the freshly created
pending task does not change the count; `POST /process` schedules the
background task and answers a PROCESSING TaskResponse exactly when the
check holds, and otherwise takes the queued branch. -/
theorem concurrency_gate (s : SysState) (uid fid now : Nat) :
    (checkConcurrencyLimit s = true ↔
      s.tasks.countP (fun t => t.status == TaskStatus.processing) < s.maxConcurrent) ∧
    (checkConcurrencyLimit (postCreatedState uid fid now s) = checkConcurrencyLimit s) ∧
    (checkConcurrencyLimit s = true →
      applyEvent (Event.post uid fid now) s =
        some ({ postCreatedState uid fid now s with
                 scheduled := s.scheduled ++ [s.nextId] },
              Reply.taskResp s.nextId TaskStatus.processing none)) ∧
    (checkConcurrencyLimit s = false →
      applyEvent (Event.post uid fid now) s =
        some (queuedBranch s.nextId (postCreatedState uid fid now s))) := by
  have hcount : checkConcurrencyLimit (postCreatedState uid fid now s) =
      checkConcurrencyLimit s := by
    unfold checkConcurrencyLimit postCreatedState
    simp [List.countP_append, List.countP_cons]
  refine ⟨?_, hcount, ?_, ?_⟩
  · unfold checkConcurrencyLimit
    exact decide_eq_true_iff
  · intro hc
    show some (applyPost uid fid now s) = _
    rw [applyPost_eq, if_pos (by rw [hcount]; exact hc)]
  · intro hc
    show some (applyPost uid fid now s) = _
    rw [applyPost_eq, if_neg (by rw [hcount, hc]; exact Bool.false_ne_true)]
    unfold queuedBranch
    rw [adapter_no_update_task_status]
    simp

/-- C4 witness: on the empty state with limit 1 the POST starts at once; on
a state with one processing task it takes the queued branch. -/
theorem concurrency_gate_witness :
    applyEvent (Event.post 0 0 5) (initState 1) =
      some ({ tasks := [{ task_id := 0, user_id := 0, status := TaskStatus.pending, created_at := 5, progress := 0 }],
              dbFiles := [0], scheduled := [0], nextId := 1, maxConcurrent := 1 },
            Reply.taskResp 0 TaskStatus.processing none) ∧
    applyEvent (Event.post 1 1 10)
      { tasks := [{ task_id := 0, user_id := 0, status := TaskStatus.processing, created_at := 0, progress := 10, started_at := some 1 }],
        dbFiles := [0], scheduled := [], nextId := 1, maxConcurrent := 1 } =
      some (queuedBranch 1 (postCreatedState 1 1 10
        { tasks := [{ task_id := 0, user_id := 0, status := TaskStatus.processing, created_at := 0, progress := 10, started_at := some 1 }],
          dbFiles := [0], scheduled := [], nextId := 1, maxConcurrent := 1 })) := by
  constructor
  · have h := (concurrency_gate (initState 1) 0 0 5).2.2.1 (by decide)
    rw [h]
    rfl
  · exact (concurrency_gate
      { tasks := [{ task_id := 0, user_id := 0, status := TaskStatus.processing, created_at := 0, progress := 10, started_at := some 1 }],
        dbFiles := [0], scheduled := [], nextId := 1, maxConcurrent := 1 }
      1 1 10).2.2.2 (by decide)

end ApiV2
namespace ApiV2

/-- C2: the adapter class defines no `update_task_status` method, so both
call sites raise AttributeError into their `except Exception` handler:
`POST /process` answers HTTP 500 whenever `check_concurrency_limit` is
False (never the queued TaskResponse with a queue position), and
`DELETE /tasks/task_id` on an existing task that is neither completed nor
failed answers HTTP 500 instead of cancelling, changing nothing. -/
theorem update_task_status_missing (s : SysState) (uid fid now tid cnow : Nat)
    (t : TaskRecord) :
    ("update_task_status" ∉ adapterMethods) ∧
    (checkConcurrencyLimit (postCreatedState uid fid now s) = false →
      applyEvent (Event.post uid fid now) s =
        some (postCreatedState uid fid now s, Reply.httpError 500)) ∧
    (findTask s.tasks tid = some t → t.status ≠ TaskStatus.completed →
      t.status ≠ TaskStatus.failed →
      applyEvent (Event.cancel tid cnow) s = some (s, Reply.httpError 500)) := by
  refine ⟨by decide, ?_, ?_⟩
  · intro hc
    show some (applyPost uid fid now s) = _
    rw [applyPost_eq, if_neg (by rw [hc]; exact Bool.false_ne_true)]
  · intro hfind hnc hnf
    show some (applyCancel tid cnow s) = _
    unfold applyCancel
    rw [hfind, adapter_no_update_task_status]
    have h1 : (t.status == TaskStatus.completed) = false := by simpa using hnc
    have h2 : (t.status == TaskStatus.failed) = false := by simpa using hnf
    simp [h1, h2]

/-- C2 witness: with limit 1 and one processing task, the queued branch of a
second POST answers 500, and DELETE on the pending task answers 500. -/
theorem update_task_status_missing_witness :
    applyEvent (Event.post 1 1 10)
      { tasks := [{ task_id := 0, user_id := 0, status := TaskStatus.processing, created_at := 0, progress := 10, started_at := some 1 }],
        dbFiles := [0], scheduled := [], nextId := 1, maxConcurrent := 1 } =
      some (postCreatedState 1 1 10
        { tasks := [{ task_id := 0, user_id := 0, status := TaskStatus.processing, created_at := 0, progress := 10, started_at := some 1 }],
          dbFiles := [0], scheduled := [], nextId := 1, maxConcurrent := 1 },
        Reply.httpError 500) ∧
    applyEvent (Event.cancel 0 20) (initState 1) = some (initState 1, Reply.httpError 404) ∧
    applyEvent (Event.cancel 0 20)
      { tasks := [{ task_id := 0, user_id := 0, status := TaskStatus.pending, created_at := 0, progress := 0 }],
        dbFiles := [0], scheduled := [], nextId := 1, maxConcurrent := 1 } =
      some ({ tasks := [{ task_id := 0, user_id := 0, status := TaskStatus.pending, created_at := 0, progress := 0 }],
              dbFiles := [0], scheduled := [], nextId := 1, maxConcurrent := 1 },
            Reply.httpError 500) := by
  refine ⟨?_, by decide, ?_⟩
  · exact (update_task_status_missing
      { tasks := [{ task_id := 0, user_id := 0, status := TaskStatus.processing, created_at := 0, progress := 10, started_at := some 1 }],
        dbFiles := [0], scheduled := [], nextId := 1, maxConcurrent := 1 }
      1 1 10 0 0
      { task_id := 0, user_id := 0, status := TaskStatus.pending, created_at := 0, progress := 0 }).2.1
      (by decide)
  · exact (update_task_status_missing
      { tasks := [{ task_id := 0, user_id := 0, status := TaskStatus.pending, created_at := 0, progress := 0 }],
        dbFiles := [0], scheduled := [], nextId := 1, maxConcurrent := 1 }
      0 0 0 0 20
      { task_id := 0, user_id := 0, status := TaskStatus.pending, created_at := 0, progress := 0 }).2.2
      (by decide) (by decide) (by decide)

/-- C8: `GET /status/task_id` answers 404 exactly when no record with the
id exists; otherwise it answers a StatusResponse copying the record's
status, progress, result, error, error type and timestamps; in either case
the state is unchanged. -/
theorem status_endpoint (s : SysState) (tid : Nat) :
    (∃ rep, applyEvent (Event.getStatus tid) s = some (s, rep)) ∧
    (findTask s.tasks tid = none ↔
      applyEvent (Event.getStatus tid) s = some (s, Reply.httpError 404)) ∧
    (∀ t, findTask s.tasks tid = some t →
      applyEvent (Event.getStatus tid) s =
        some (s, Reply.statusResp tid t.status (some t.progress) t.result t.error
          t.error_type t.created_at t.started_at t.completed_at)) := by
  refine ⟨?_, ⟨?_, ?_⟩, ?_⟩
  · cases hp : applyGetStatus tid s with
    | mk s1 rep =>
      have h1 : s1 = s := by
        have h2 := applyGetStatus_state tid s
        rw [hp] at h2
        exact h2
      exact ⟨rep, by show some (applyGetStatus tid s) = _; rw [hp, h1]⟩
  · intro hn
    show some (applyGetStatus tid s) = _
    unfold applyGetStatus
    rw [hn]
  · intro h
    cases hf : findTask s.tasks tid with
    | none => rfl
    | some t =>
      have : applyEvent (Event.getStatus tid) s =
          some (s, Reply.statusResp tid t.status (some t.progress) t.result t.error
            t.error_type t.created_at t.started_at t.completed_at) := by
        show some (applyGetStatus tid s) = _
        unfold applyGetStatus
        rw [hf]
      rw [this] at h
      injection h with h1
      injection h1 with _ h2
      cases h2
  · intro t hf
    show some (applyGetStatus tid s) = _
    unfold applyGetStatus
    rw [hf]

/-- C8 witness: on a completed one-task state, the status endpoint returns
the record's fields unchanged, and an unknown id gets 404. -/
theorem status_endpoint_witness :
    applyEvent (Event.getStatus 0)
      { tasks := [{ task_id := 0, user_id := 3, status := TaskStatus.completed, created_at := 2, progress := 100, result := some "done", completed_at := some 9 }],
        dbFiles := [0], scheduled := [], nextId := 1, maxConcurrent := 4 } =
      some ({ tasks := [{ task_id := 0, user_id := 3, status := TaskStatus.completed, created_at := 2, progress := 100, result := some "done", completed_at := some 9 }],
              dbFiles := [0], scheduled := [], nextId := 1, maxConcurrent := 4 },
            Reply.statusResp 0 TaskStatus.completed (some 100) (some "done") none
              none 2 none (some 9)) ∧
    applyEvent (Event.getStatus 5) (initState 2) =
      some (initState 2, Reply.httpError 404) := by
  constructor
  · exact (status_endpoint
      { tasks := [{ task_id := 0, user_id := 3, status := TaskStatus.completed, created_at := 2, progress := 100, result := some "done", completed_at := some 9 }],
        dbFiles := [0], scheduled := [], nextId := 1, maxConcurrent := 4 } 0).2.2
      { task_id := 0, user_id := 3, status := TaskStatus.completed, created_at := 2, progress := 100, result := some "done", completed_at := some 9 }
      (by decide)
  · exact (status_endpoint (initState 2) 5).2.1.1 (by decide)

/-- C7 counterexample: `create_task` performs no database write — on the
fresh state it stores the record only in the adapter's in-memory dict,
while the database component (which receives the module's only database
writes, `Files.insert_new_file`) stays empty. -/
theorem task_not_persisted_counterexample :
    (createTask 7 100 (initState 4)).2.dbFiles = (initState 4).dbFiles ∧
    (initState 4).dbFiles = [] ∧
    findTask (createTask 7 100 (initState 4)).2.tasks 0 =
      some { task_id := 0, user_id := 7, status := TaskStatus.pending, created_at := 100, progress := 0 } := by
  refine ⟨rfl, rfl, by decide⟩

/-- C7 amended: task records and their status updates live only in the
adapter's in-process dictionary; no event writes a task record through the
database layer — the only database write in the system is the
uploaded-file record that `POST /process` inserts. -/
theorem task_records_in_memory_only (e : Event) (s s' : SysState) (r : Reply)
    (h : applyEvent e s = some (s', r)) :
    (∀ (uid now : Nat) (s0 : SysState), (createTask uid now s0).2.dbFiles = s0.dbFiles) ∧
    ((∃ uid fid now, e = Event.post uid fid now ∧ s'.dbFiles = s.dbFiles ++ [fid]) ∨
      s'.dbFiles = s.dbFiles) := by
  refine ⟨fun uid now s0 => rfl, ?_⟩
  cases e with
  | post uid fid now =>
    left
    refine ⟨uid, fid, now, rfl, ?_⟩
    simp only [applyEvent] at h
    injection h with h1
    rw [applyPost_eq] at h1
    by_cases hc : checkConcurrencyLimit (postCreatedState uid fid now s) = true
    · rw [if_pos hc] at h1
      injection h1 with h2 _
      rw [← h2]
      rfl
    · rw [if_neg hc] at h1
      injection h1 with h2 _
      rw [← h2]
      rfl
  | bgStart tid now =>
    right
    simp only [applyEvent] at h
    cases hc : s.scheduled.contains tid
    · rw [hc] at h; exact absurd h (by simp)
    · rw [hc] at h
      simp only [if_true] at h
      injection h with h1
      injection h1 with h2 _
      rw [← h2]
  | bgProgress tid p =>
    right
    simp only [applyEvent] at h
    cases hfind : findTask s.tasks tid with
    | none => rw [hfind] at h; exact absurd h (by simp)
    | some t₀ =>
      rw [hfind] at h
      simp only at h
      cases hg : (t₀.status == TaskStatus.processing && (p == 10 || p == 50 || p == 60))
      · rw [hg] at h; exact absurd h (by simp)
      · rw [hg] at h
        simp only [if_true] at h
        injection h with h1
        injection h1 with h2 _
        rw [← h2]
  | bgFinish tid outcome now =>
    right
    simp only [applyEvent] at h
    cases hfind : findTask s.tasks tid with
    | none => rw [hfind] at h; exact absurd h (by simp)
    | some t₀ =>
      rw [hfind] at h
      simp only at h
      cases hg : (t₀.status == TaskStatus.processing)
      · rw [hg] at h; exact absurd h (by simp)
      · rw [hg] at h
        simp only [if_true] at h
        cases outcome with
        | success content =>
          injection h with h1
          injection h1 with h2 _
          rw [← h2]
        | failure msg =>
          injection h with h1
          injection h1 with h2 _
          rw [← h2]
  | getStatus tid =>
    right
    simp only [applyEvent] at h
    injection h with h1
    have h2 : s' = s := by
      have := congrArg Prod.fst h1
      rw [applyGetStatus_state] at this
      exact this.symm
    rw [h2]
  | cancel tid now =>
    right
    simp only [applyEvent] at h
    injection h with h1
    have h2 : s' = s := by
      have := congrArg Prod.fst h1
      rw [applyCancel_state] at this
      exact this.symm
    rw [h2]
  | cleanup now =>
    right
    simp only [applyEvent] at h
    injection h with h1
    injection h1 with h2 _
    rw [← h2]
    rfl

/-- C7 amended witness: a concrete background-finish step leaves the
database component untouched. -/
theorem task_records_in_memory_only_witness :
    (createTask 3 4 (initState 2)).2.dbFiles = (initState 2).dbFiles ∧
    ((∃ uid fid now, Event.bgFinish 0 (BgOutcome.success "ok") 9 = Event.post uid fid now ∧
        ({ tasks := [{ task_id := 0, user_id := 0, status := TaskStatus.completed, created_at := 0, progress := 100, result := some "ok", started_at := some 1, completed_at := some 9 }],
           dbFiles := [0], scheduled := [], nextId := 1, maxConcurrent := 1 } : SysState).dbFiles =
          ({ tasks := [{ task_id := 0, user_id := 0, status := TaskStatus.processing, created_at := 0, progress := 10, started_at := some 1 }],
             dbFiles := [0], scheduled := [], nextId := 1, maxConcurrent := 1 } : SysState).dbFiles ++ [fid]) ∨
      ({ tasks := [{ task_id := 0, user_id := 0, status := TaskStatus.completed, created_at := 0, progress := 100, result := some "ok", started_at := some 1, completed_at := some 9 }],
         dbFiles := [0], scheduled := [], nextId := 1, maxConcurrent := 1 } : SysState).dbFiles =
        ({ tasks := [{ task_id := 0, user_id := 0, status := TaskStatus.processing, created_at := 0, progress := 10, started_at := some 1 }],
           dbFiles := [0], scheduled := [], nextId := 1, maxConcurrent := 1 } : SysState).dbFiles) := by
  have h := task_records_in_memory_only (Event.bgFinish 0 (BgOutcome.success "ok") 9)
    { tasks := [{ task_id := 0, user_id := 0, status := TaskStatus.processing, created_at := 0, progress := 10, started_at := some 1 }],
      dbFiles := [0], scheduled := [], nextId := 1, maxConcurrent := 1 }
    { tasks := [{ task_id := 0, user_id := 0, status := TaskStatus.completed, created_at := 0, progress := 100, result := some "ok", started_at := some 1, completed_at := some 9 }],
      dbFiles := [0], scheduled := [], nextId := 1, maxConcurrent := 1 }
    Reply.silent (by decide)
  exact ⟨h.1 3 4 (initState 2), h.2⟩

/-- C1 (the code against the claim): with `API_V2_MAX_CONCURRENT = 1` and
one task processing, a second `POST /process` arrives — a task "created
while the concurrency limit is reached". The endpoint answers HTTP 500
(the queued marking raises AttributeError), the new task is left pending —
never queued — and no later sequence of events ever dispatches it to
`process_document_background`: no drain of a queue exists anywhere in the
module. -/
theorem queued_task_never_dispatched :
    applyEvent (Event.post 1 1 10)
      { tasks := [{ task_id := 0, user_id := 0, status := TaskStatus.processing, created_at := 0, progress := 10, started_at := some 1 }],
        dbFiles := [0], scheduled := [], nextId := 1, maxConcurrent := 1 } =
      some ({ tasks := [{ task_id := 0, user_id := 0, status := TaskStatus.processing, created_at := 0, progress := 10, started_at := some 1 },
                        { task_id := 1, user_id := 1, status := TaskStatus.pending, created_at := 10, progress := 0 }],
              dbFiles := [0, 1], scheduled := [], nextId := 2, maxConcurrent := 1 },
            Reply.httpError 500) ∧
    (∀ es s', applyEvents es
        { tasks := [{ task_id := 0, user_id := 0, status := TaskStatus.processing, created_at := 0, progress := 10, started_at := some 1 },
                    { task_id := 1, user_id := 1, status := TaskStatus.pending, created_at := 10, progress := 0 }],
          dbFiles := [0, 1], scheduled := [], nextId := 2, maxConcurrent := 1 } = some s' →
      ∃ t, findTask s'.tasks 1 = some t ∧ t.status = TaskStatus.pending ∧
        1 ∉ s'.scheduled) := by
  constructor
  · decide
  · intro es s' h
    refine pending_stuck ⟨?_, ?_, ?_⟩ h
      (show findTask _ 1 =
        some { task_id := 1, user_id := 1, status := TaskStatus.pending, created_at := 10, progress := 0 }
       by decide) rfl (by decide)
    · decide
    · decide
    · decide

end ApiV2
